import Mathlib

/-!
Verification of the frame-finalization stage of lib/CodeGen/PrologEpilogInserter.cpp:
call-frame pseudo elimination, callee-saved register placement and restore insertion,
frame-object offset assignment, and frame-index lowering with stack-pointer adjustment
tracking.  The definitions below are a shallow embedding of the corresponding C++
functions; doc comments cite the source lines each definition is translated from.
Machine integers are modelled as Nat/Int (the C++ arithmetic involved never overflows
on the inputs the theorems quantify over, and overflow-relevant steps such as the
bit-mask rounding of the frame size are modelled with their 64-bit semantics made
explicit).  Target-descriptor callbacks (spill code generation, pseudo elimination
hooks, addressing hooks) are injected strategy per the design and are represented by
boolean/valued parameters; the instructions such hooks would insert are outside the
modelled state.
-/

namespace PEI

/-- Stack-protector classification of one object, StackProtector::SSPLayoutKind. -/
inductive SSPLayoutKind where
  | sspNone
  | sspSmallArray
  | sspAddrOf
  | sspLargeArray
  deriving Repr, DecidableEq

/-- One abstract stack slot of the MachineFrameInfo: its size in bytes, its
alignment, its (signed) byte offset, and the flags the offset-assignment pass
inspects (isDeadObjectIndex, isObjectPreAllocated) together with its
stack-protector classification. -/
structure StackObject where
  size : Nat
  alignment : Nat
  offset : Int
  isDead : Bool
  preAllocated : Bool
  ssp : SSPLayoutKind
  deriving Repr, DecidableEq

/-- Placeholder object returned for an out-of-range index; alignment 1 makes the
alignment rounding on it a no-op. -/
def emptyStackObject : StackObject :=
  { size := 0, alignment := 1, offset := 0, isDead := false,
    preAllocated := false, ssp := .sspNone }

/-- The per-function MachineFrameInfo state this stage reads and writes:
the fixed (caller-supplied) objects, the ordinary objects (index i is position i,
getObjectIndexEnd() = objects.length), the callee-saved records (register paired
with its frame index), and the scalar frame facts. -/
structure FrameModel where
  fixedObjects : List StackObject
  objects : List StackObject
  csInfo : List (Nat × Int)
  stackSize : Int
  maxAlignment : Nat
  adjustsStack : Bool
  maxCallFrameSize : Nat
  hasVarSizedObjects : Bool
  stackProtectorIdx : Int
  useLocalStackAllocationBlock : Bool
  localFrameSize : Int
  localFrameMaxAlign : Nat
  localFrameObjectMap : List (Nat × Int)
  deriving Repr, DecidableEq

/-- MachineFrameInfo::getObjectSize for ordinary (non-fixed) objects. -/
def FrameModel.getObjectSize (m : FrameModel) (i : Nat) : Nat :=
  (m.objects.getD i emptyStackObject).size

/-- MachineFrameInfo::getObjectAlignment for ordinary objects. -/
def FrameModel.getObjectAlignment (m : FrameModel) (i : Nat) : Nat :=
  (m.objects.getD i emptyStackObject).alignment

/-- MachineFrameInfo::getObjectOffset for ordinary objects. -/
def FrameModel.getObjectOffset (m : FrameModel) (i : Nat) : Int :=
  (m.objects.getD i emptyStackObject).offset

/-- MachineFrameInfo::isDeadObjectIndex for ordinary objects. -/
def FrameModel.isDeadObjectIndex (m : FrameModel) (i : Nat) : Bool :=
  (m.objects.getD i emptyStackObject).isDead

/-- MachineFrameInfo::isObjectPreAllocated for ordinary objects. -/
def FrameModel.isObjectPreAllocated (m : FrameModel) (i : Nat) : Bool :=
  (m.objects.getD i emptyStackObject).preAllocated

/-- Stack-protector classification of an ordinary object
(SP->getSSPLayout(MFI->getObjectAllocation(i))). -/
def FrameModel.sspLayout (m : FrameModel) (i : Nat) : SSPLayoutKind :=
  (m.objects.getD i emptyStackObject).ssp

/-- MachineFrameInfo::hasStackObjects: any object at all, fixed or not. -/
def FrameModel.hasStackObjects (m : FrameModel) : Bool :=
  !(m.fixedObjects.isEmpty && m.objects.isEmpty)

/-- The rounding `Offset = (Offset + Align - 1) / Align * Align` used throughout
calculateFrameObjectOffsets (lines 410, 491, 500, 533).  C++ int64_t division
truncates toward zero, hence Int.tdiv; every use site has a nonnegative offset
and a positive alignment, where tdiv agrees with Euclidean division. -/
def roundUp (offset : Int) (align : Nat) : Int :=
  (Int.tdiv (offset + align - 1) align) * align

/-- AdjustStackOffset (PrologEpilogInserter.cpp lines 394-420): place one object
at the running offset.  Returns the new running offset, the new running maximum
alignment, and the offset recorded for the object via setObjectOffset. -/
def AdjustStackOffset (m : FrameModel) (frameIdx : Nat) (stackGrowsDown : Bool)
    (offset : Int) (maxAlign : Nat) : Int × Nat × Int :=
  let offset := if stackGrowsDown then offset + m.getObjectSize frameIdx else offset
  let align := m.getObjectAlignment frameIdx
  let maxAlign := max maxAlign align
  let offset := roundUp offset align
  if stackGrowsDown then
    (offset, maxAlign, -offset)
  else
    (offset + m.getObjectSize frameIdx, maxAlign, offset)

/-- Modelled from the spec: the "round up to the object's alignment" wording of
section 4.3 — the least multiple of the alignment that is not below the given
value.  Used only to compare the source's AdjustStackOffset against the spec's
description of it (claim C2). -/
def roundUpToAlignment (x : Int) (align : Nat) : Int :=
  if (align : Int) ∣ x then x else (x / align + 1) * align

/-- Modelled from the spec: the "place one object" helper as section 4.3 words it:
downward stack — add the size, round the updated offset up to the alignment,
record the negation; upward stack — round up first, record, then add the size;
in both cases the running maximum alignment becomes the max of its old value and
the object's alignment. -/
def adjustStackOffsetSpec (m : FrameModel) (frameIdx : Nat) (stackGrowsDown : Bool)
    (offset : Int) (maxAlign : Nat) : Int × Nat × Int :=
  let size := m.getObjectSize frameIdx
  let align := m.getObjectAlignment frameIdx
  if stackGrowsDown then
    let r := roundUpToAlignment (offset + size) align
    (r, max maxAlign align, -r)
  else
    let r := roundUpToAlignment offset align
    (r + size, max maxAlign align, r)

/-- Target-descriptor and pass-level inputs consulted by
calculateFrameObjectOffsets (lines 441-649): growth direction, local-area
offset, stack alignments, the scavenger state, and the callee-saved index
range computed by calculateCalleeSavedRegisters. -/
structure TargetFrameInfo where
  stackGrowsDown : Bool
  localAreaOffset : Int
  stackAlignment : Nat
  transientStackAlignment : Nat
  targetHandlesFrameRounding : Bool
  hasReservedCallFrame : Bool
  needsStackRealignment : Bool
  hasFP : Bool
  isFPCloseToIncomingSP : Bool
  useFPForScavengingIndex : Bool
  hasRegScavenger : Bool
  scavengingFrameIndices : List Nat
  minCSFrameIndex : Nat
  maxCSFrameIndex : Nat
  deriving Repr, DecidableEq

/-- Running state of offset assignment: the offsets recorded so far by
setObjectOffset (as a map from ordinary object index to assigned offset), the
running Offset counter and the running MaxAlign.  Sizes, alignments and flags
are never written by the pass, so they are read from the immutable input
model. -/
structure LayoutState where
  assign : Nat → Option Int
  offset : Int
  maxAlign : Nat

/-- Record one setObjectOffset call in the assignment map. -/
def updateAssign (a : Nat → Option Int) (i : Nat) (v : Int) : Nat → Option Int :=
  fun j => if j = i then some v else a j

/-- One AdjustStackOffset call threaded through the layout state. -/
def placeObject (m : FrameModel) (sgd : Bool) (st : LayoutState) (i : Nat) :
    LayoutState :=
  let r := AdjustStackOffset m i sgd st.offset st.maxAlign
  { assign := updateAssign st.assign i r.2.2, offset := r.1, maxAlign := r.2.1 }

/-- One iteration of the StackGrowsDown callee-saved loop (lines 484-494): add
the size, align, record the negated offset.  MaxAlign is not touched here. -/
def placeCSObjectDown (m : FrameModel) (st : LayoutState) (i : Nat) : LayoutState :=
  let offset := st.offset + m.getObjectSize i
  let offset := roundUp offset (m.getObjectAlignment i)
  { assign := updateAssign st.assign i (-offset), offset := offset,
    maxAlign := st.maxAlign }

/-- One iteration of the upward-growing callee-saved loop (lines 496-504):
align, record the offset, then add the size. -/
def placeCSObjectUp (m : FrameModel) (st : LayoutState) (i : Nat) : LayoutState :=
  let offset := roundUp st.offset (m.getObjectAlignment i)
  { assign := updateAssign st.assign i offset,
    offset := offset + m.getObjectSize i, maxAlign := st.maxAlign }

/-- The indices visited by the callee-saved region loops: MinCSFrameIndex up to
MaxCSFrameIndex inclusive, empty when the range is empty (MinCSFrameIndex is
initialized to INT_MAX and MaxCSFrameIndex to 0 when no slots were created). -/
def csFrameIndices (ctx : TargetFrameInfo) : List Nat :=
  if ctx.minCSFrameIndex ≤ ctx.maxCSFrameIndex then
    List.range' ctx.minCSFrameIndex (ctx.maxCSFrameIndex + 1 - ctx.minCSFrameIndex)
  else []

/-- The `i >= MinCSFrameIndex && i <= MaxCSFrameIndex` test of lines 564 and 595. -/
def isCSFrameIndex (ctx : TargetFrameInfo) (i : Nat) : Bool :=
  decide (ctx.minCSFrameIndex ≤ i) && decide (i ≤ ctx.maxCSFrameIndex)

/-- RS->isScavengingFrameIndex(i). -/
def isScavengingFrameIndex (ctx : TargetFrameInfo) (i : Nat) : Bool :=
  ctx.scavengingFrameIndices.contains i

/-- The EarlyScavengingSlots condition of lines 513-516. -/
def earlyScavengingSlots (ctx : TargetFrameInfo) : Bool :=
  ctx.hasFP && ctx.isFPCloseToIncomingSP && ctx.useFPForScavengingIndex &&
    !ctx.needsStackRealignment

/-- Place the scavenger's reserved slots (lines 517-523 and 611-617). -/
def placeScavengingSlots (ctx : TargetFrameInfo) (m : FrameModel) (sgd : Bool)
    (st : LayoutState) : LayoutState :=
  ctx.scavengingFrameIndices.foldl (placeObject m sgd) st

/-- The local-block phase (lines 529-549): align the running offset to the
block's max alignment, rebase every mapped object's precomputed sub-offset on
the (sign-adjusted) block base, bump the offset by the block size and merge the
block alignment into MaxAlign. -/
def assignLocalBlock (m : FrameModel) (sgd : Bool) (st : LayoutState) : LayoutState :=
  if m.useLocalStackAllocationBlock then
    let align := m.localFrameMaxAlign
    let offset := roundUp st.offset align
    let assign := m.localFrameObjectMap.foldl
      (fun a e => updateAssign a e.1 ((if sgd then -offset else offset) + e.2)) st.assign
    { assign := assign, offset := offset + m.localFrameSize,
      maxAlign := max align st.maxAlign }
  else st

/-- The LargeArrayObjs set of lines 555-583: every ordinary object that
survives the skip conditions of the protector loop and is classified
SSPLK_LargeArray, in increasing index order (the insertion order of the
SetVector). -/
def largeArrayObjs (ctx : TargetFrameInfo) (m : FrameModel) : List Nat :=
  (List.range m.objects.length).filter (fun i =>
    !(m.isObjectPreAllocated i && m.useLocalStackAllocationBlock) &&
    !(isCSFrameIndex ctx i) &&
    !(ctx.hasRegScavenger && isScavengingFrameIndex ctx i) &&
    !(m.isDeadObjectIndex i) &&
    !(decide (m.stackProtectorIdx = (i : Int))) &&
    (m.sspLayout i == .sspLargeArray))

/-- The ProtectedObjs set consulted at line 603: filled by
AssignProtectedObjSet only when a stack protector exists. -/
def protectedObjs (ctx : TargetFrameInfo) (m : FrameModel) : List Nat :=
  if 0 ≤ m.stackProtectorIdx then largeArrayObjs ctx m else []

/-- The indices placed by the main loop of lines 591-607, in increasing order,
after all of its skip conditions. -/
def remainingObjects (ctx : TargetFrameInfo) (m : FrameModel) : List Nat :=
  (List.range m.objects.length).filter (fun i =>
    !(m.isObjectPreAllocated i && m.useLocalStackAllocationBlock) &&
    !(isCSFrameIndex ctx i) &&
    !(ctx.hasRegScavenger && isScavengingFrameIndex ctx i) &&
    !(m.isDeadObjectIndex i) &&
    !(decide (m.stackProtectorIdx = (i : Int))) &&
    !((protectedObjs ctx m).contains i))

/-- The sign-adjusted starting local-area offset of lines 454-456. -/
def adjustedLocalAreaOffset (ctx : TargetFrameInfo) : Int :=
  if ctx.stackGrowsDown then -ctx.localAreaOffset else ctx.localAreaOffset

/-- Lines 461-479: push the starting offset past any preallocated fixed
objects (`if (FixedOff > Offset) Offset = FixedOff`). -/
def fixedPushOffset (ctx : TargetFrameInfo) (m : FrameModel) : Int :=
  m.fixedObjects.foldl
    (fun off fo =>
      let fixedOff := if ctx.stackGrowsDown then -fo.offset
        else fo.offset + (fo.size : Int)
      if fixedOff > off then fixedOff else off)
    (adjustedLocalAreaOffset ctx)

/-- The layout state entering the callee-saved region: no offsets assigned
yet, the offset pushed past the fixed objects. -/
def initialLayoutState (ctx : TargetFrameInfo) (m : FrameModel) : LayoutState :=
  { assign := fun _ => none, offset := fixedPushOffset ctx m, maxAlign := 0 }

/-- The callee-saved region (lines 481-505): ascending index order when the
stack grows down, descending otherwise. -/
def csPhase (ctx : TargetFrameInfo) (m : FrameModel) (st : LayoutState) : LayoutState :=
  if ctx.stackGrowsDown then (csFrameIndices ctx).foldl (placeCSObjectDown m) st
  else (csFrameIndices ctx).reverse.foldl (placeCSObjectUp m) st

/-- Line 507: `unsigned MaxAlign = MFI->getMaxAlignment()`. -/
def maxAlignReset (m : FrameModel) (st : LayoutState) : LayoutState :=
  { st with maxAlign := m.maxAlignment }

/-- Lines 509-523: scavenging slots placed early when close to the incoming
stack pointer. -/
def earlyScavPhase (ctx : TargetFrameInfo) (m : FrameModel) (st : LayoutState) :
    LayoutState :=
  if ctx.hasRegScavenger && earlyScavengingSlots ctx then
    placeScavengingSlots ctx m ctx.stackGrowsDown st
  else st

/-- Lines 551-587: the stack protector object followed by every large-array
object that must sit next to it. -/
def protectorPhase (ctx : TargetFrameInfo) (m : FrameModel) (st : LayoutState) :
    LayoutState :=
  if 0 ≤ m.stackProtectorIdx then
    (largeArrayObjs ctx m).foldl (placeObject m ctx.stackGrowsDown)
      (placeObject m ctx.stackGrowsDown st m.stackProtectorIdx.toNat)
  else st

/-- Lines 589-607: all remaining live objects, in increasing index order. -/
def mainPhase (ctx : TargetFrameInfo) (m : FrameModel) (st : LayoutState) :
    LayoutState :=
  (remainingObjects ctx m).foldl (placeObject m ctx.stackGrowsDown) st

/-- Lines 609-617: scavenging slots placed last, closest to the stack pointer. -/
def lateScavPhase (ctx : TargetFrameInfo) (m : FrameModel) (st : LayoutState) :
    LayoutState :=
  if ctx.hasRegScavenger && !earlyScavengingSlots ctx then
    placeScavengingSlots ctx m ctx.stackGrowsDown st
  else st

/-- The placement phases of calculateFrameObjectOffsets in source order
(lines 461-617). -/
def layoutPhases (ctx : TargetFrameInfo) (m : FrameModel) : LayoutState :=
  lateScavPhase ctx m
    (mainPhase ctx m
      (protectorPhase ctx m
        (assignLocalBlock m ctx.stackGrowsDown
          (earlyScavPhase ctx m
            (maxAlignReset m
              (csPhase ctx m (initialLayoutState ctx m)))))))

/-- The placement part of calculateFrameObjectOffsets (lines 441-617), up to
but excluding the final frame rounding; none models the line 457-458 assert
firing on a negative sign-adjusted local-area offset. -/
def runLayout (ctx : TargetFrameInfo) (m : FrameModel) : Option LayoutState :=
  if adjustedLocalAreaOffset ctx < 0 then none
  else some (layoutPhases ctx m)

/-- The final rounding `Offset = (Offset + AlignMask) & ~uint64_t(AlignMask)`
of lines 641-642, with AlignMask = StackAlign - 1; the complement of the mask
is taken at 64 bits. -/
def maskRound (offset : Int) (stackAlign : Nat) : Int :=
  let alignMask := stackAlign - 1
  (((offset + (alignMask : Int)).toNat &&& (2 ^ 64 - 1 - alignMask) : Nat) : Int)

/-- The StackAlign selection of lines 631-636: the target's full stack
alignment if the function adjusts the stack, has variable-sized objects, or
needs realignment with a nonempty object list; else the transient alignment. -/
def stackAlignChoice (ctx : TargetFrameInfo) (m : FrameModel) : Nat :=
  if m.adjustsStack || m.hasVarSizedObjects ||
      (ctx.needsStackRealignment && decide (m.objects.length ≠ 0)) then
    ctx.stackAlignment
  else ctx.transientStackAlignment

/-- Write the recorded setObjectOffset values back into the object list. -/
def applyAssignments (objs : List StackObject) (a : Nat → Option Int) :
    List StackObject :=
  objs.mapIdx (fun i o =>
    match a i with
    | some v => { o with offset := v }
    | none => o)

/-- The frame rounding post-pass of lines 619-643: unless the target handles
its own rounding, add the maximum call-frame size when the function adjusts
the stack and call frames are permanently reserved (623-624), choose the stack
alignment, merge MaxAlign (631-640), and round with the 64-bit mask (641-642).
Returns the final Offset. -/
def frameRounding (ctx : TargetFrameInfo) (m : FrameModel) (st : LayoutState) :
    Int :=
  if !ctx.targetHandlesFrameRounding then
    let offset := if m.adjustsStack && ctx.hasReservedCallFrame then
        st.offset + m.maxCallFrameSize
      else st.offset
    let stackAlign := max (stackAlignChoice ctx m) st.maxAlign
    maskRound offset stackAlign
  else st.offset

/-- PEI::calculateFrameObjectOffsets (lines 441-649): the placement phases,
the frame rounding post-pass, and the final
`StackSize = Offset - LocalAreaOffset` stored by setStackSize (646-647).
Returns none exactly when the source would trip the line 457 assert. -/
def calculateFrameObjectOffsets (ctx : TargetFrameInfo) (m : FrameModel) :
    Option FrameModel :=
  match runLayout ctx m with
  | none => none
  | some st =>
    some { m with objects := applyAssignments m.objects st.assign,
                  stackSize := frameRounding ctx m st - adjustedLocalAreaOffset ctx }

/-- The resolved stack alignment of lines 631-640: the larger of the chosen
required/transient target alignment and the accumulated maximum object
alignment. -/
def resolvedStackAlign (ctx : TargetFrameInfo) (m : FrameModel) : Nat :=
  match runLayout ctx m with
  | some st => max (stackAlignChoice ctx m) st.maxAlign
  | none => stackAlignChoice ctx m

/-- The offset fed to the final rounding: the placement result plus the
reserved outgoing call-frame size when applicable (lines 623-624). -/
def preRoundOffset (ctx : TargetFrameInfo) (m : FrameModel) : Int :=
  match runLayout ctx m with
  | some st =>
      if m.adjustsStack && ctx.hasReservedCallFrame then
        st.offset + m.maxCallFrameSize
      else st.offset
  | none => 0

/-- A plain stack object of the given size and alignment, used by example models. -/
def mkObj (size align : Nat) : StackObject :=
  { size := size, alignment := align, offset := 0, isDead := false,
    preAllocated := false, ssp := .sspNone }

/-- An empty frame model with maximum alignment 1; example models are built by
updating its fields. -/
def emptyModel : FrameModel :=
  { fixedObjects := [], objects := [], csInfo := [], stackSize := 0,
    maxAlignment := 1, adjustsStack := false, maxCallFrameSize := 0,
    hasVarSizedObjects := false, stackProtectorIdx := -1,
    useLocalStackAllocationBlock := false, localFrameSize := 0,
    localFrameMaxAlign := 1, localFrameObjectMap := [] }

/-- Example model for the C2 witness: one 4-byte object with 8-byte alignment. -/
def exModelC2 : FrameModel :=
  { emptyModel with objects := [mkObj 4 8] }

/-- Well-formedness of the precomputed local block, guaranteed by the local
stack-slot allocation pass that fills the map: the block size and alignment
are sane, each object is mapped at most once, every mapped sub-offset places
its object inside the block (on the growth-direction side of the block base),
distinct mapped objects do not overlap inside the block, and every object
flagged pre-allocated is in the map. -/
def localBlockWellFormed (sgd : Bool) (m : FrameModel) : Prop :=
  m.useLocalStackAllocationBlock = true →
    0 ≤ m.localFrameSize ∧ 0 < m.localFrameMaxAlign ∧
    (m.localFrameObjectMap.map Prod.fst).Nodup ∧
    (∀ e ∈ m.localFrameObjectMap,
      if sgd then e.2 + (m.getObjectSize e.1 : Int) ≤ 0 ∧ -m.localFrameSize ≤ e.2
      else 0 ≤ e.2 ∧ e.2 + (m.getObjectSize e.1 : Int) ≤ m.localFrameSize) ∧
    (∀ e ∈ m.localFrameObjectMap, ∀ f ∈ m.localFrameObjectMap, e.1 ≠ f.1 →
      e.2 + (m.getObjectSize e.1 : Int) ≤ f.2 ∨
        f.2 + (m.getObjectSize f.1 : Int) ≤ e.2) ∧
    (∀ i, i < m.objects.length → m.isObjectPreAllocated i = true →
      ∃ s, (i, s) ∈ m.localFrameObjectMap)

/-- Invariant threaded through the placement phases: the running offset never
drops below its starting value or below zero; every offset assigned so far
lies on the already-placed side of the running frontier (at distance at most
`offset` from the frame origin); and the extents `[offset, offset + size)` of
any two distinct objects assigned so far are disjoint. -/
def LayoutInv (m : FrameModel) (sgd : Bool) (lb : Int) (st : LayoutState) : Prop :=
  lb ≤ st.offset ∧ 0 ≤ st.offset ∧
  (∀ i v, st.assign i = some v →
    (if sgd then -st.offset ≤ v else v + (m.getObjectSize i : Int) ≤ st.offset)) ∧
  (∀ i j vi vj, st.assign i = some vi → st.assign j = some vj → i ≠ j →
    vi + (m.getObjectSize i : Int) ≤ vj ∨ vj + (m.getObjectSize j : Int) ≤ vi)

/-- Example target for the C1/C3/C8 witnesses: a downward-growing stack with a
16-byte required and 4-byte transient alignment, no scavenger, no callee-saved
slots (MinCSFrameIndex still INT_MAX). -/
def exCtxC1 : TargetFrameInfo :=
  { stackGrowsDown := true, localAreaOffset := 0, stackAlignment := 16,
    transientStackAlignment := 4, targetHandlesFrameRounding := false,
    hasReservedCallFrame := true, needsStackRealignment := false,
    hasFP := false, isFPCloseToIncomingSP := false,
    useFPForScavengingIndex := false, hasRegScavenger := false,
    scavengingFrameIndices := [], minCSFrameIndex := 2147483647,
    maxCSFrameIndex := 0 }

/-- Example model for the C1 witness: two live 4-byte objects, 4-byte aligned. -/
def exModelC1 : FrameModel :=
  { emptyModel with objects := [mkObj 4 4, mkObj 4 4] }

/-- The result of offset assignment on exModelC1 with exCtxC1: the objects land
at offsets -4 and -8 and the frame is 8 bytes. -/
def exModelC1res : FrameModel :=
  { emptyModel with
      objects := [{ mkObj 4 4 with offset := -4 }, { mkObj 4 4 with offset := -8 }],
      stackSize := 8 }


/-- Example target for the C3 counterexample: a local area offset of -8 (as on
targets that bias the local area by the return-address slot) on a
downward-growing stack with 16-byte required and transient alignment. -/
def exCtxC3 : TargetFrameInfo :=
  { exCtxC1 with localAreaOffset := -8, transientStackAlignment := 16 }


/-- The per-object data calculateFrameObjectOffsets reads but never writes:
size, alignment, dead flag, pre-allocated flag and protector classification
(it writes only the offset). -/
def objInput (o : StackObject) : Nat × Nat × Bool × Bool × SSPLayoutKind :=
  (o.size, o.alignment, o.isDead, o.preAllocated, o.ssp)

/-- Everything calculateFrameObjectOffsets reads from the frame model: the
per-object inputs, the fixed objects (offsets included — they are only read),
and the scalar fields; the ordinary objects' offsets and the stack size are
excluded, being the pass's outputs. -/
def layoutInputs (m : FrameModel) :=
  (m.objects.map objInput, m.fixedObjects, m.maxAlignment, m.adjustsStack,
   m.maxCallFrameSize, m.hasVarSizedObjects, m.stackProtectorIdx,
   m.useLocalStackAllocationBlock, m.localFrameSize, m.localFrameMaxAlign,
   m.localFrameObjectMap)


/-- The machine-instruction forms this stage inspects: call-frame setup and
destroy pseudo-markers with their immediate byte count, inline assembly with
its "requires stack alignment" marker, an instruction carrying a frame-index
operand (resolved to resolvedRef with the live SP adjustment by frame-index
lowering), a callee-saved restore load inserted by loadRegFromStackSlot,
returns and other terminators, and everything else. -/
inductive Instr where
  | frameSetup (amt : Nat)
  | frameDestroy (amt : Nat)
  | inlineAsm (alignStack : Bool)
  | frameRef (idx : Nat)
  | resolvedRef (idx : Nat) (adj : Int)
  | csLoad (reg : Nat)
  | ret
  | branch
  | other
  deriving Repr, DecidableEq

/-- MachineInstr::isTerminator. -/
def Instr.isTerminator : Instr → Bool
  | .ret => true
  | .branch => true
  | _ => false

/-- MachineInstr::isReturn. -/
def Instr.isReturn : Instr → Bool
  | .ret => true
  | _ => false

/-- One instruction of the scan loop of calculateCallsInformation (lines
204-219), threading (MaxCallFrameSize, AdjustsStack): a setup/destroy pseudo
raises the maximum with its immediate and sets AdjustsStack; inline asm with
the align-stack marker sets AdjustsStack. -/
def callsInfoStep (acc : Nat × Bool) (i : Instr) : Nat × Bool :=
  match i with
  | .frameSetup n => (if n > acc.1 then n else acc.1, true)
  | .frameDestroy n => (if n > acc.1 then n else acc.1, true)
  | .inlineAsm alignStack => (acc.1, acc.2 || alignStack)
  | _ => acc

/-- PEI::calculateCallsInformation (lines 186-235): early exit when the target
defines neither call-frame opcode; otherwise scan every instruction of every
block and store the computed MaxCallFrameSize and AdjustsStack (221-222).
The deletion of the collected pseudos when canSimplifyCallFramePseudos holds
(224-234) goes through the target's eliminateCallFramePseudoInstr hook, whose
replacement instructions are target-specific and outside the frame facts this
model tracks. -/
def calculateCallsInformation (hasCallFrameOpcodes : Bool)
    (blocks : List (List Instr)) (m : FrameModel) : FrameModel :=
  if !hasCallFrameOpcodes then m
  else
    let r := blocks.foldl (fun acc b => b.foldl callsInfoStep acc) (0, m.adjustsStack)
    { m with maxCallFrameSize := r.1, adjustsStack := r.2 }

/-- The immediate byte count of a call-frame pseudo-marker, none otherwise. -/
def pseudoAmt : Instr → Option Nat
  | .frameSetup n => some n
  | .frameDestroy n => some n
  | _ => none

/-- All pseudo-marker byte counts of a function, in program order. -/
def pseudoAmounts (blocks : List (List Instr)) : List Nat :=
  blocks.flatten.filterMap pseudoAmt

/-- Does any instruction of the function carry a call-frame pseudo-marker? -/
def hasCallFramePseudo (blocks : List (List Instr)) : Bool :=
  blocks.flatten.any (fun i => (pseudoAmt i).isSome)

/-- Does any inline-assembly instruction carry the align-stack marker? -/
def hasAlignStackAsm (blocks : List (List Instr)) : Bool :=
  blocks.flatten.any (fun i =>
    match i with
    | .inlineAsm a => a
    | _ => false)

/-- Target/function inputs of calculateCalleeSavedRegisters (lines 240-318):
the ordered callee-saved list, the register-use tracking, the unwind-init and
naked flags, and the per-register slot hooks. -/
structure CSRContext where
  csRegs : List Nat
  regUsed : Nat → Bool
  callsUnwindInit : Bool
  naked : Bool
  reservedSpillSlot : Nat → Option Int
  fixedSpillSlots : List (Nat × Int)
  regClassSize : Nat → Nat
  regClassAlign : Nat → Nat
  stackAlignment : Nat

/-- Allocate the stack slot for one selected callee-saved register (lines
279-315): a target-reserved slot is used as-is; a fixed spill slot for this
exact register yields a fixed object at that offset (CreateFixedObject, index
-(number of fixed objects)); otherwise a fresh ordinary object sized to the
register class, aligned to the min of the class alignment and the stack
alignment, updating the MinCSFrameIndex/MaxCSFrameIndex range.  The fixed
object's alignment derivation inside CreateFixedObject is not consulted by
anything modelled here and is recorded as 1. -/
def allocateCSSlot (ctx : CSRContext)
    (acc : FrameModel × Nat × Nat × List (Nat × Int)) (reg : Nat) :
    FrameModel × Nat × Nat × List (Nat × Int) :=
  let (m, minCS, maxCS, csi) := acc
  match ctx.reservedSpillSlot reg with
  | some fi => (m, minCS, maxCS, csi ++ [(reg, fi)])
  | none =>
    match ctx.fixedSpillSlots.find? (fun s => s.1 = reg) with
    | none =>
        let align := min (ctx.regClassAlign reg) ctx.stackAlignment
        let idx := m.objects.length
        let m2 := { m with objects := m.objects ++
          [{ size := ctx.regClassSize reg, alignment := align, offset := 0,
             isDead := false, preAllocated := false, ssp := .sspNone }] }
        let minCS2 := if idx < minCS then idx else minCS
        let maxCS2 := if idx > maxCS then idx else maxCS
        (m2, minCS2, maxCS2, csi ++ [(reg, (idx : Int))])
    | some slot =>
        let m2 := { m with fixedObjects := m.fixedObjects ++
          [{ size := ctx.regClassSize reg, alignment := 1, offset := slot.2,
             isDead := false, preAllocated := false, ssp := .sspNone }] }
        (m2, minCS, maxCS, csi ++ [(reg, -(m2.fixedObjects.length : Int))])

/-- PEI::calculateCalleeSavedRegisters (lines 240-318): early exits for an
empty target list and for naked functions; select the registers the
register-use tracking shows written (all of them when the function calls the
unwind initializer); allocate their slots; store the records via
setCalleeSavedInfo.  Returns the updated model and the
(MinCSFrameIndex, MaxCSFrameIndex) pair, initialized to (INT_MAX, 0). -/
def calculateCalleeSavedRegisters (ctx : CSRContext) (m : FrameModel) :
    FrameModel × Nat × Nat :=
  let minCS : Nat := 2147483647
  let maxCS : Nat := 0
  if ctx.csRegs.isEmpty then (m, minCS, maxCS)
  else if ctx.naked then (m, minCS, maxCS)
  else
    let csi := ctx.csRegs.filter (fun r => ctx.regUsed r || ctx.callsUnwindInit)
    if csi.isEmpty then (m, minCS, maxCS)
    else
      let r := csi.foldl (allocateCSSlot ctx) (m, minCS, maxCS, [])
      ({ r.1 with csInfo := r.2.2.2 }, r.2.1, r.2.2.1)

/-- The per-register restore insertion loop of lines 375-389: each load is
inserted immediately before the current insertion point, and the insertion
point is then reset to the just-inserted load (`I = BeforeI; ++I`), so the
loads accumulate in front of the pending suffix in reverse order. -/
def insertRestoreLoads (csi : List (Nat × Int)) (post : List Instr) : List Instr :=
  match csi with
  | [] => post
  | c :: rest => insertRestoreLoads rest (Instr.csLoad c.1 :: post)

/-- The insertion position computed by lines 358-365: start at the last
instruction and walk backward while the preceding instruction is a
terminator. -/
def restoreInsertIdx (b : List Instr) : Nat :=
  b.length - 1 - ((b.reverse.drop 1).takeWhile Instr.isTerminator).length

/-- Restore insertion into one return block (lines 356-390) when the target's
bulk restoreCalleeSavedRegisters hook declined (the targetHandled flag; its
replacement code is target-specific and not modelled): insert one load per
callee-saved record before the trailing terminators. -/
def restoreCalleeSavedInBlock (targetHandled : Bool) (csi : List (Nat × Int))
    (b : List Instr) : List Instr :=
  if targetHandled then b
  else
    let idx := restoreInsertIdx b
    b.take idx ++ insertRestoreLoads csi (b.drop idx)

/-- PEI::isReturnBlock (lines 80-82): nonempty and ending in a return. -/
def isReturnBlock (b : List Instr) : Bool :=
  match b.getLast? with
  | some i => i.isReturn
  | none => false

/-- The restore half of insertCSRSpillsAndRestores (lines 323-392): early exit
on an empty callee-saved set, then restore insertion into every return block
(the ReturnBlocks set computed by calculateSets). -/
def insertCSRRestores (targetHandled : Bool) (csi : List (Nat × Int))
    (blocks : List (List Instr)) : List (List Instr) :=
  if csi.isEmpty then blocks
  else blocks.map (fun b =>
    if isReturnBlock b then restoreCalleeSavedInBlock targetHandled csi b else b)

/-- The maximal trailing run of terminator instructions of a block. -/
def trailingTerminators (b : List Instr) : List Instr :=
  (b.reverse.takeWhile Instr.isTerminator).reverse

/-- A machine function as frame-index lowering sees it: blocks of
instructions (block id = position, entry = block 0), the successor lists of
the control-flow graph, and the total number of stack objects (fixed and
ordinary) for hasStackObjects. -/
structure MachineFunctionCFG where
  blocks : List (List Instr)
  succs : List (List Nat)
  numStackObjects : Nat
  deriving Repr, DecidableEq

/-- PEI::replaceFrameIndices on one block (lines 722-817), for the
frame-index-virtual-scavenging configuration: a call-frame pseudo updates
SPAdj by its immediate with the sign determined by growth direction and
setup/destroy (744-748) and is then deleted through the target's elimination
hook (752; the hook's replacement instructions are target-specific and not
modelled); a frame-index operand is resolved through the target's addressing
hook with the live SPAdj (799), recorded here as resolvedRef.  Returns the
block's exit SPAdj and its rewritten instructions. -/
def replaceFrameIndicesInBlock (sgd : Bool) (adj : Int) :
    List Instr → Int × List Instr
  | [] => (adj, [])
  | i :: rest =>
    match i with
    | .frameSetup n =>
        replaceFrameIndicesInBlock sgd (adj + if sgd then (n : Int) else -(n : Int)) rest
    | .frameDestroy n =>
        replaceFrameIndicesInBlock sgd (adj + if sgd then -(n : Int) else (n : Int)) rest
    | .frameRef idx =>
        let r := replaceFrameIndicesInBlock sgd adj rest
        (r.1, .resolvedRef idx adj :: r.2)
    | instr =>
        let r := replaceFrameIndicesInBlock sgd adj rest
        (r.1, instr :: r.2)

/-- One processed block of frame-index lowering: the block id, the
depth-first-stack predecessor it was discovered from (none for the entry
block and for unreachable blocks), the SP adjustment its instructions were
processed with, its exit adjustment, its rewritten instructions, and whether
the DFS reached it. -/
structure VisitRec where
  block : Nat
  dfsPred : Option Nat
  entryAdj : Int
  exitAdj : Int
  instrs : List Instr
  reachable : Bool
  deriving Repr, DecidableEq

/-- State of the depth-first traversal: the Reachable set and the processed
blocks in visit order (SPState is carried inside the records). -/
structure DfsState where
  visited : List Nat
  recs : List VisitRec
  deriving Repr, DecidableEq

/-- The df_ext depth-first traversal of lines 696-710: a block not yet in the
Reachable set is processed with the entry adjustment read from its stack
predecessor's recorded exit state, marked reachable, and its successors are
explored with its own exit adjustment.  Fuel bounds the recursion depth; any
fuel larger than the block count is enough, since each level of the DFS
visits a distinct new block. -/
def dfsFrom (sgd : Bool) (fn : MachineFunctionCFG) :
    Nat → Nat → Int → Option Nat → DfsState → DfsState
  | 0, _, _, _, st => st
  | fuel+1, b, entryAdj, pred, st =>
    if st.visited.contains b then st
    else
      let r := replaceFrameIndicesInBlock sgd entryAdj (fn.blocks.getD b [])
      let st1 : DfsState :=
        ⟨b :: st.visited, st.recs ++ [⟨b, pred, entryAdj, r.1, r.2, true⟩]⟩
      (fn.succs.getD b []).foldl (fun s nb => dfsFrom sgd fn fuel nb r.1 (some b) s) st1

/-- PEI::replaceFrameIndices (lines 687-720): immediate return when the frame
has no stack objects at all (688); otherwise the depth-first traversal from
the entry block with SPAdj 0, followed by every block not in the Reachable
set, each processed independently with SPAdj reset to 0 (713-719).  Returns
the rewritten function and the visit records. -/
def replaceFrameIndices (sgd : Bool) (fn : MachineFunctionCFG) :
    MachineFunctionCFG × List VisitRec :=
  if fn.numStackObjects = 0 then (fn, [])
  else
    let st := dfsFrom sgd fn (fn.blocks.length + 1) 0 0 none ⟨[], []⟩
    let unreach := ((List.range fn.blocks.length).filter
      (fun i => !(st.visited.contains i))).map
      (fun i =>
        let r := replaceFrameIndicesInBlock sgd 0 (fn.blocks.getD i [])
        (⟨i, none, 0, r.1, r.2, false⟩ : VisitRec))
    let recs := st.recs ++ unreach
    let blocks := (List.range fn.blocks.length).map (fun i =>
      match recs.find? (fun v => v.block = i) with
      | some v => v.instrs
      | none => fn.blocks.getD i [])
    ({ fn with blocks := blocks }, recs)

/-- What claim C4 asserts of one visit record, relative to the full record
list: a reachable block's entry adjustment is zero when it has no DFS-stack
predecessor (then it is the entry block), and otherwise equals the recorded
exit adjustment of its DFS-stack predecessor; an unreachable block is
processed with adjustment zero; and the record's exit adjustment and
rewritten instructions come from processing the block's original instructions
at its entry adjustment. -/
def VisitRecOK (sgd : Bool) (fn : MachineFunctionCFG) (recs : List VisitRec)
    (r : VisitRec) : Prop :=
  (r.reachable = true →
    (r.dfsPred = none → r.block = 0 ∧ r.entryAdj = 0) ∧
    (∀ p, r.dfsPred = some p → ∃ rp ∈ recs, rp.block = p ∧ rp.reachable = true ∧
      r.entryAdj = rp.exitAdj)) ∧
  (r.reachable = false → r.dfsPred = none ∧ r.entryAdj = 0) ∧
  r.exitAdj = (replaceFrameIndicesInBlock sgd r.entryAdj (fn.blocks.getD r.block [])).1 ∧
  r.instrs = (replaceFrameIndicesInBlock sgd r.entryAdj (fn.blocks.getD r.block [])).2


/-- Example callee-saved context for the C6 witness: registers 1 and 3 are
written, 2 is not; no reserved or fixed slots. -/
def exCtxC6 : CSRContext :=
  { csRegs := [1, 2, 3], regUsed := fun r => decide (r = 1) || decide (r = 3),
    callsUnwindInit := false, naked := false,
    reservedSpillSlot := fun _ => none, fixedSpillSlots := [],
    regClassSize := fun _ => 8, regClassAlign := fun _ => 8,
    stackAlignment := 16 }

/-- The same context for a naked function. -/
def exCtxC6naked : CSRContext := { exCtxC6 with naked := true }

/-- Example return block for the C7 witness: one ordinary instruction followed
by a two-instruction terminator sequence ending in a return. -/
def exBlockC7 : List Instr := [.other, .branch, .ret]

/-- Example callee-saved records for the C7 witness. -/
def exCSIC7 : List (Nat × Int) := [(1, 0), (2, 1)]

/-- Example function for the C10 witness: one block still containing
call-frame pseudo-markers, but no stack objects at all. -/
def exFnC10 : MachineFunctionCFG :=
  { blocks := [[.frameSetup 16, .frameDestroy 16, .ret]], succs := [[]],
    numStackObjects := 0 }

/-- Example function for the C4 witness (the spec's two-block scenario): block
0 reserves 16 bytes of outgoing argument space and branches to block 1, which
contains a frame-index reference. -/
def exFnC4 : MachineFunctionCFG :=
  { blocks := [[.frameSetup 16, .branch], [.frameRef 0, .ret]],
    succs := [[1], []], numStackObjects := 1 }


/-! ## Theorems -/

lemma roundUp_eq_ediv_mul (offset : Int) (align : Nat) (hoff : 0 ≤ offset)
    (hal : 0 < align) :
    roundUp offset align = (offset + align - 1) / align * align := by
  unfold roundUp
  have h1 : (0 : Int) ≤ offset + align - 1 := by
    have : (1 : Int) ≤ (align : Int) := by exact_mod_cast hal
    omega
  rw [Int.tdiv_eq_ediv h1 (by exact_mod_cast Nat.zero_le align)]

lemma roundUp_ge (offset : Int) (align : Nat) (hoff : 0 ≤ offset) (hal : 0 < align) :
    offset ≤ roundUp offset align := by
  rw [roundUp_eq_ediv_mul offset align hoff hal]
  have hA : (0 : Int) < (align : Int) := by exact_mod_cast hal
  have hmod := Int.emod_lt_of_pos (offset + align - 1) hA
  have hmod0 := Int.emod_nonneg (offset + align - 1) hA.ne'
  have hdm := Int.ediv_add_emod (offset + align - 1) (align : Int)
  have hcomm : ((align : Int)) * ((offset + align - 1) / align) =
      ((offset + align - 1) / align) * align := mul_comm _ _
  omega

lemma roundUp_dvd (offset : Int) (align : Nat) :
    (align : Int) ∣ roundUp offset align := by
  unfold roundUp
  exact ⟨_, mul_comm _ _⟩

lemma roundUp_nonneg (offset : Int) (align : Nat) (hoff : 0 ≤ offset) (hal : 0 < align) :
    0 ≤ roundUp offset align :=
  le_trans hoff (roundUp_ge offset align hoff hal)

lemma roundUp_eq_roundUpToAlignment (x : Int) (align : Nat) (hx : 0 ≤ x)
    (hal : 0 < align) :
    roundUp x align = roundUpToAlignment x align := by
  have hA : (0 : Int) < (align : Int) := by exact_mod_cast hal
  have hAne : ((align : Int)) ≠ 0 := hA.ne'
  rw [roundUp_eq_ediv_mul x align hx hal]
  unfold roundUpToAlignment
  have hdm : (align : Int) * (x / align) + x % align = x := Int.ediv_add_emod x _
  have hr0 : 0 ≤ x % align := Int.emod_nonneg x hAne
  have hrA : x % align < align := Int.emod_lt_of_pos x hA
  have hcomm : ((align : Int)) * (x / align) = (x / align) * align := mul_comm _ _
  by_cases hdvd : (align : Int) ∣ x
  · simp only [hdvd, if_true]
    have hr : x % align = 0 := Int.emod_eq_zero_of_dvd hdvd
    have h1 : x + align - 1 = (align - 1) + (x / align) * align := by omega
    rw [h1, Int.add_mul_ediv_right _ _ hAne,
      Int.ediv_eq_zero_of_lt (by omega) (by omega), zero_add]
    omega
  · simp only [hdvd, if_false]
    have hrne : x % align ≠ 0 := fun h => hdvd (Int.dvd_of_emod_eq_zero h)
    have h1 : x + align - 1 = (x % align - 1) + (x / align + 1) * align := by
      have hexp : (x / align + 1) * align = (x / align) * align + align := by ring
      omega
    rw [h1, Int.add_mul_ediv_right _ _ hAne,
      Int.ediv_eq_zero_of_lt (by omega) (by omega), zero_add]


lemma getObjectAlignment_pos (m : FrameModel)
    (halign : ∀ o ∈ m.objects, 0 < o.alignment) (i : Nat) :
    0 < m.getObjectAlignment i := by
  unfold FrameModel.getObjectAlignment
  rw [List.getD_eq_getElem?_getD]
  cases h : m.objects[i]? with
  | none => simp [emptyStackObject]
  | some o =>
      obtain ⟨hlt, hget⟩ := List.getElem?_eq_some.mp h
      have hmem : o ∈ m.objects := hget ▸ List.getElem_mem _
      simpa using halign o hmem

lemma foldl_preserves {α σ : Type _} (P : σ → Prop) (step : σ → α → σ)
    (l : List α) (s : σ) (hstep : ∀ t x, x ∈ l → P t → P (step t x)) (h : P s) :
    P (l.foldl step s) := by
  induction l generalizing s with
  | nil => exact h
  | cons x xs ih =>
      exact ih _ (fun t y hy => hstep t y (List.mem_cons_of_mem _ hy))
        (hstep s x (List.mem_cons_self _ _) h)

lemma placeObject_true (m : FrameModel) (st : LayoutState) (k : Nat) :
    placeObject m true st k =
      { assign := updateAssign st.assign k
          (-(roundUp (st.offset + m.getObjectSize k) (m.getObjectAlignment k))),
        offset := roundUp (st.offset + m.getObjectSize k) (m.getObjectAlignment k),
        maxAlign := max st.maxAlign (m.getObjectAlignment k) } := rfl

lemma placeObject_false (m : FrameModel) (st : LayoutState) (k : Nat) :
    placeObject m false st k =
      { assign := updateAssign st.assign k (roundUp st.offset (m.getObjectAlignment k)),
        offset := roundUp st.offset (m.getObjectAlignment k) + m.getObjectSize k,
        maxAlign := max st.maxAlign (m.getObjectAlignment k) } := rfl

lemma updateAssign_eq_some (a : Nat → Option Int) (i : Nat) (v : Int) (j : Nat)
    (w : Int) : updateAssign a i v j = some w ↔
      (j = i ∧ w = v) ∨ (j ≠ i ∧ a j = some w) := by
  unfold updateAssign
  by_cases h : j = i <;> simp [h, eq_comm]

lemma down_step_inv (m : FrameModel) (lb : Int) (st : LayoutState) (k : Nat)
    (hal : 0 < m.getObjectAlignment k) (h : LayoutInv m true lb st)
    (a' : Nat → Option Int) (ma' : Nat)
    (ha' : a' = updateAssign st.assign k
      (-(roundUp (st.offset + m.getObjectSize k) (m.getObjectAlignment k)))) :
    LayoutInv m true lb
      { assign := a',
        offset := roundUp (st.offset + m.getObjectSize k) (m.getObjectAlignment k),
        maxAlign := ma' } := by
  obtain ⟨hlb, h0, hfr, hdis⟩ := h
  have hfr' : ∀ i v, st.assign i = some v → -st.offset ≤ v := by
    intro i v hv
    have := hfr i v hv
    rwa [if_pos rfl] at this
  have hszn : (0 : Int) ≤ (m.getObjectSize k : Int) := Int.ofNat_nonneg _
  have hge : st.offset + (m.getObjectSize k : Int) ≤
      roundUp (st.offset + m.getObjectSize k) (m.getObjectAlignment k) :=
    roundUp_ge _ _ (by omega) hal
  subst ha'
  refine ⟨by dsimp only; omega, by dsimp only; omega, ?_, ?_⟩
  · intro i v hv
    dsimp only at hv
    rw [if_pos rfl]
    dsimp only
    rcases (updateAssign_eq_some _ _ _ _ _).mp hv with ⟨hik, rfl⟩ | ⟨hik, hv'⟩
    · omega
    · have := hfr' i v hv'
      omega
  · intro i j vi vj hvi hvj hij
    dsimp only at hvi hvj
    rcases (updateAssign_eq_some _ _ _ _ _).mp hvi with ⟨hik, rfl⟩ | ⟨hik, hvi'⟩
    · rcases (updateAssign_eq_some _ _ _ _ _).mp hvj with ⟨hjk, rfl⟩ | ⟨hjk, hvj'⟩
      · exact absurd (hik.trans hjk.symm) hij
      · have := hfr' j vj hvj'
        left
        subst hik
        omega
    · rcases (updateAssign_eq_some _ _ _ _ _).mp hvj with ⟨hjk, rfl⟩ | ⟨hjk, hvj'⟩
      · have := hfr' i vi hvi'
        right
        subst hjk
        omega
      · exact hdis i j vi vj hvi' hvj' hij

lemma up_step_inv (m : FrameModel) (lb : Int) (st : LayoutState) (k : Nat)
    (hal : 0 < m.getObjectAlignment k) (h : LayoutInv m false lb st)
    (a' : Nat → Option Int) (ma' : Nat)
    (ha' : a' = updateAssign st.assign k (roundUp st.offset (m.getObjectAlignment k))) :
    LayoutInv m false lb
      { assign := a',
        offset := roundUp st.offset (m.getObjectAlignment k) + m.getObjectSize k,
        maxAlign := ma' } := by
  obtain ⟨hlb, h0, hfr, hdis⟩ := h
  have hfr' : ∀ i v, st.assign i = some v →
      v + (m.getObjectSize i : Int) ≤ st.offset := by
    intro i v hv
    have := hfr i v hv
    rwa [if_neg Bool.false_ne_true] at this
  have hszn : (0 : Int) ≤ (m.getObjectSize k : Int) := Int.ofNat_nonneg _
  have hge : st.offset ≤ roundUp st.offset (m.getObjectAlignment k) :=
    roundUp_ge _ _ h0 hal
  subst ha'
  refine ⟨by dsimp only; omega, by dsimp only; omega, ?_, ?_⟩
  · intro i v hv
    dsimp only at hv
    rw [if_neg Bool.false_ne_true]
    dsimp only
    rcases (updateAssign_eq_some _ _ _ _ _).mp hv with ⟨hik, rfl⟩ | ⟨hik, hv'⟩
    · subst hik
      omega
    · have := hfr' i v hv'
      omega
  · intro i j vi vj hvi hvj hij
    dsimp only at hvi hvj
    rcases (updateAssign_eq_some _ _ _ _ _).mp hvi with ⟨hik, rfl⟩ | ⟨hik, hvi'⟩
    · rcases (updateAssign_eq_some _ _ _ _ _).mp hvj with ⟨hjk, rfl⟩ | ⟨hjk, hvj'⟩
      · exact absurd (hik.trans hjk.symm) hij
      · have := hfr' j vj hvj'
        right
        subst hik
        omega
    · rcases (updateAssign_eq_some _ _ _ _ _).mp hvj with ⟨hjk, rfl⟩ | ⟨hjk, hvj'⟩
      · have := hfr' i vi hvi'
        left
        subst hjk
        omega
      · exact hdis i j vi vj hvi' hvj' hij

lemma placeObject_inv (m : FrameModel) (sgd : Bool) (lb : Int) (st : LayoutState)
    (k : Nat) (hal : 0 < m.getObjectAlignment k) (h : LayoutInv m sgd lb st) :
    LayoutInv m sgd lb (placeObject m sgd st k) := by
  cases sgd with
  | true => rw [placeObject_true]; exact down_step_inv m lb st k hal h _ _ rfl
  | false => rw [placeObject_false]; exact up_step_inv m lb st k hal h _ _ rfl

lemma placeCSObjectDown_inv (m : FrameModel) (lb : Int) (st : LayoutState)
    (k : Nat) (hal : 0 < m.getObjectAlignment k) (h : LayoutInv m true lb st) :
    LayoutInv m true lb (placeCSObjectDown m st k) :=
  down_step_inv m lb st k hal h _ _ rfl

lemma placeCSObjectUp_inv (m : FrameModel) (lb : Int) (st : LayoutState)
    (k : Nat) (hal : 0 < m.getObjectAlignment k) (h : LayoutInv m false lb st) :
    LayoutInv m false lb (placeCSObjectUp m st k) :=
  up_step_inv m lb st k hal h _ _ rfl

lemma foldl_updateAssign_eq_of_not_mem : ∀ (map : List (Nat × Int))
    (g : Nat × Int → Int) (a0 : Nat → Option Int) (i : Nat),
    i ∉ map.map Prod.fst →
    (map.foldl (fun a e => updateAssign a e.1 (g e)) a0) i = a0 i
  | [], _, _, _, _ => rfl
  | e :: rest, g, a0, i, hi => by
      simp only [List.map_cons, List.mem_cons] at hi
      push_neg at hi
      rw [List.foldl_cons, foldl_updateAssign_eq_of_not_mem rest g _ i hi.2]
      unfold updateAssign
      simp [hi.1]

lemma foldl_updateAssign_eq_of_mem : ∀ (map : List (Nat × Int))
    (g : Nat × Int → Int) (a0 : Nat → Option Int) (i : Nat) (s : Int),
    (i, s) ∈ map → (map.map Prod.fst).Nodup →
    (map.foldl (fun a e => updateAssign a e.1 (g e)) a0) i = some (g (i, s))
  | [], _, _, _, _, hmem, _ => absurd hmem (List.not_mem_nil _)
  | e :: rest, g, a0, i, s, hmem, hnd => by
      simp only [List.map_cons, List.nodup_cons] at hnd
      rw [List.foldl_cons]
      rcases List.mem_cons.mp hmem with he | hrest
      · have hik : i ∉ rest.map Prod.fst := by
          have := hnd.1
          rwa [← he] at this
        rw [foldl_updateAssign_eq_of_not_mem rest g _ i hik, ← he]
        unfold updateAssign
        simp
      · exact foldl_updateAssign_eq_of_mem rest g _ i s hrest hnd.2

lemma assignLocalBlock_inv (m : FrameModel) (sgd : Bool) (lb : Int)
    (st : LayoutState) (hwf : localBlockWellFormed sgd m)
    (h : LayoutInv m sgd lb st) :
    LayoutInv m sgd lb (assignLocalBlock m sgd st) := by
  unfold assignLocalBlock
  by_cases hu : m.useLocalStackAllocationBlock = true
  case neg => rw [if_neg hu]; exact h
  case pos =>
  rw [if_pos hu]
  obtain ⟨hlfs, hlfa, hnd, hcont, hpair, _⟩ := hwf hu
  obtain ⟨hlb, h0, hfr, hdis⟩ := h
  have hgeB : st.offset ≤ roundUp st.offset m.localFrameMaxAlign :=
    roundUp_ge _ _ h0 hlfa
  set B := roundUp st.offset m.localFrameMaxAlign with hB
  have hmemEntry : ∀ i, i ∈ m.localFrameObjectMap.map Prod.fst →
      ∃ s, (i, s) ∈ m.localFrameObjectMap := by
    intro i hk
    obtain ⟨e, hemem, he1⟩ := List.mem_map.mp hk
    exact ⟨e.2, by rw [← he1]; exact hemem⟩
  refine ⟨by dsimp only; omega, by dsimp only; omega, ?_, ?_⟩
  · intro i v hv
    dsimp only at hv ⊢
    by_cases hk : i ∈ m.localFrameObjectMap.map Prod.fst
    · obtain ⟨s, hmem⟩ := hmemEntry i hk
      rw [foldl_updateAssign_eq_of_mem _ _ _ _ _ hmem hnd] at hv
      have hv' := Option.some.inj hv
      have hc := hcont (i, s) hmem
      cases sgd with
      | true =>
          rw [if_pos rfl] at hc ⊢
          rw [if_pos rfl] at hv'
          dsimp only at hc
          omega
      | false =>
          rw [if_neg Bool.false_ne_true] at hc ⊢
          rw [if_neg Bool.false_ne_true] at hv'
          dsimp only at hc
          omega
    · rw [foldl_updateAssign_eq_of_not_mem _ _ _ _ hk] at hv
      have hold := hfr i v hv
      cases sgd with
      | true =>
          rw [if_pos rfl] at hold ⊢
          omega
      | false =>
          rw [if_neg Bool.false_ne_true] at hold ⊢
          omega
  · intro i j vi vj hvi hvj hij
    dsimp only at hvi hvj
    by_cases hki : i ∈ m.localFrameObjectMap.map Prod.fst
    · obtain ⟨si, hmi⟩ := hmemEntry i hki
      rw [foldl_updateAssign_eq_of_mem _ _ _ _ _ hmi hnd] at hvi
      have hvi' := Option.some.inj hvi
      by_cases hkj : j ∈ m.localFrameObjectMap.map Prod.fst
      · obtain ⟨sj, hmj⟩ := hmemEntry j hkj
        rw [foldl_updateAssign_eq_of_mem _ _ _ _ _ hmj hnd] at hvj
        have hvj' := Option.some.inj hvj
        have hp := hpair (i, si) hmi (j, sj) hmj hij
        dsimp only at hp
        cases sgd with
        | true =>
            rw [if_pos rfl] at hvi' hvj'
            omega
        | false =>
            rw [if_neg Bool.false_ne_true] at hvi' hvj'
            omega
      · rw [foldl_updateAssign_eq_of_not_mem _ _ _ _ hkj] at hvj
        have holdj := hfr j vj hvj
        have hci := hcont (i, si) hmi
        dsimp only at hci
        cases sgd with
        | true =>
            rw [if_pos rfl] at holdj hci hvi'
            left
            omega
        | false =>
            rw [if_neg Bool.false_ne_true] at holdj hci hvi'
            right
            have hszj : (0 : Int) ≤ (m.getObjectSize j : Int) := Int.ofNat_nonneg _
            omega
    · rw [foldl_updateAssign_eq_of_not_mem _ _ _ _ hki] at hvi
      have holdi := hfr i vi hvi
      by_cases hkj : j ∈ m.localFrameObjectMap.map Prod.fst
      · obtain ⟨sj, hmj⟩ := hmemEntry j hkj
        rw [foldl_updateAssign_eq_of_mem _ _ _ _ _ hmj hnd] at hvj
        have hvj' := Option.some.inj hvj
        have hcj := hcont (j, sj) hmj
        dsimp only at hcj
        cases sgd with
        | true =>
            rw [if_pos rfl] at holdi hcj hvj'
            right
            omega
        | false =>
            rw [if_neg Bool.false_ne_true] at holdi hcj hvj'
            left
            have hszi : (0 : Int) ≤ (m.getObjectSize i : Int) := Int.ofNat_nonneg _
            omega
      · rw [foldl_updateAssign_eq_of_not_mem _ _ _ _ hkj] at hvj
        exact hdis i j vi vj hvi hvj hij

lemma csPhase_inv (ctx : TargetFrameInfo) (m : FrameModel) (lb : Int)
    (st : LayoutState) (halS : ∀ i, 0 < m.getObjectAlignment i)
    (h : LayoutInv m ctx.stackGrowsDown lb st) :
    LayoutInv m ctx.stackGrowsDown lb (csPhase ctx m st) := by
  unfold csPhase
  revert h
  cases hg : ctx.stackGrowsDown with
  | true =>
      intro h
      rw [if_pos rfl]
      exact foldl_preserves _ _ _ _
        (fun t x _ ht => placeCSObjectDown_inv m lb t x (halS x) ht) h
  | false =>
      intro h
      rw [if_neg Bool.false_ne_true]
      exact foldl_preserves _ _ _ _
        (fun t x _ ht => placeCSObjectUp_inv m lb t x (halS x) ht) h

lemma placeScavengingSlots_inv (ctx : TargetFrameInfo) (m : FrameModel)
    (lb : Int) (st : LayoutState) (halS : ∀ i, 0 < m.getObjectAlignment i)
    (h : LayoutInv m ctx.stackGrowsDown lb st) :
    LayoutInv m ctx.stackGrowsDown lb
      (placeScavengingSlots ctx m ctx.stackGrowsDown st) :=
  foldl_preserves _ _ _ _
    (fun t x _ ht => placeObject_inv m ctx.stackGrowsDown lb t x (halS x) ht) h

lemma earlyScavPhase_inv (ctx : TargetFrameInfo) (m : FrameModel) (lb : Int)
    (st : LayoutState) (halS : ∀ i, 0 < m.getObjectAlignment i)
    (h : LayoutInv m ctx.stackGrowsDown lb st) :
    LayoutInv m ctx.stackGrowsDown lb (earlyScavPhase ctx m st) := by
  unfold earlyScavPhase
  by_cases hc : (ctx.hasRegScavenger && earlyScavengingSlots ctx) = true
  · rw [if_pos hc]; exact placeScavengingSlots_inv ctx m lb st halS h
  · rw [if_neg hc]; exact h

lemma lateScavPhase_inv (ctx : TargetFrameInfo) (m : FrameModel) (lb : Int)
    (st : LayoutState) (halS : ∀ i, 0 < m.getObjectAlignment i)
    (h : LayoutInv m ctx.stackGrowsDown lb st) :
    LayoutInv m ctx.stackGrowsDown lb (lateScavPhase ctx m st) := by
  unfold lateScavPhase
  by_cases hc : (ctx.hasRegScavenger && !earlyScavengingSlots ctx) = true
  · rw [if_pos hc]; exact placeScavengingSlots_inv ctx m lb st halS h
  · rw [if_neg hc]; exact h

lemma protectorPhase_inv (ctx : TargetFrameInfo) (m : FrameModel) (lb : Int)
    (st : LayoutState) (halS : ∀ i, 0 < m.getObjectAlignment i)
    (h : LayoutInv m ctx.stackGrowsDown lb st) :
    LayoutInv m ctx.stackGrowsDown lb (protectorPhase ctx m st) := by
  unfold protectorPhase
  by_cases hc : 0 ≤ m.stackProtectorIdx
  · rw [if_pos hc]
    exact foldl_preserves _ _ _ _
      (fun t x _ ht => placeObject_inv m ctx.stackGrowsDown lb t x (halS x) ht)
      (placeObject_inv m ctx.stackGrowsDown lb st _ (halS _) h)
  · rw [if_neg hc]; exact h

lemma mainPhase_inv (ctx : TargetFrameInfo) (m : FrameModel) (lb : Int)
    (st : LayoutState) (halS : ∀ i, 0 < m.getObjectAlignment i)
    (h : LayoutInv m ctx.stackGrowsDown lb st) :
    LayoutInv m ctx.stackGrowsDown lb (mainPhase ctx m st) :=
  foldl_preserves _ _ _ _
    (fun t x _ ht => placeObject_inv m ctx.stackGrowsDown lb t x (halS x) ht) h

lemma maxAlignReset_inv (m : FrameModel) (sgd : Bool) (lb : Int)
    (st : LayoutState) (h : LayoutInv m sgd lb st) :
    LayoutInv m sgd lb (maxAlignReset m st) := h

lemma foldl_le_init {α : Type _} (step : Int → α → Int) (l : List α) (a : Int)
    (h : ∀ s x, s ≤ step s x) : a ≤ l.foldl step a := by
  induction l generalizing a with
  | nil => exact le_refl a
  | cons x xs ih => exact le_trans (h a x) (ih (step a x))

lemma fixedPushOffset_ge (ctx : TargetFrameInfo) (m : FrameModel) :
    adjustedLocalAreaOffset ctx ≤ fixedPushOffset ctx m := by
  unfold fixedPushOffset
  apply foldl_le_init
  intro s fo
  dsimp only
  split <;> omega

lemma initialLayoutState_inv (ctx : TargetFrameInfo) (m : FrameModel)
    (h0 : 0 ≤ adjustedLocalAreaOffset ctx) :
    LayoutInv m ctx.stackGrowsDown (adjustedLocalAreaOffset ctx)
      (initialLayoutState ctx m) := by
  refine ⟨fixedPushOffset_ge ctx m, le_trans h0 (fixedPushOffset_ge ctx m), ?_, ?_⟩
  · intro i v hv
    exact absurd hv (by simp [initialLayoutState])
  · intro i j vi vj hvi
    exact absurd hvi (by simp [initialLayoutState])

lemma layoutPhases_inv (ctx : TargetFrameInfo) (m : FrameModel)
    (halign : ∀ o ∈ m.objects, 0 < o.alignment)
    (hwf : localBlockWellFormed ctx.stackGrowsDown m)
    (h0 : 0 ≤ adjustedLocalAreaOffset ctx) :
    LayoutInv m ctx.stackGrowsDown (adjustedLocalAreaOffset ctx)
      (layoutPhases ctx m) := by
  have halS := getObjectAlignment_pos m halign
  unfold layoutPhases
  exact lateScavPhase_inv ctx m _ _ halS
    (mainPhase_inv ctx m _ _ halS
      (protectorPhase_inv ctx m _ _ halS
        (assignLocalBlock_inv m ctx.stackGrowsDown _ _ hwf
          (earlyScavPhase_inv ctx m _ _ halS
            (maxAlignReset_inv m ctx.stackGrowsDown _ _
              (csPhase_inv ctx m _ _ halS
                (initialLayoutState_inv ctx m h0)))))))


lemma updateAssign_isSome (a : Nat → Option Int) (i : Nat) (v : Int) (j : Nat)
    (h : (a j).isSome = true) : (updateAssign a i v j).isSome = true := by
  unfold updateAssign
  split
  · rfl
  · exact h

lemma updateAssign_isSome_self (a : Nat → Option Int) (i : Nat) (v : Int) :
    (updateAssign a i v i).isSome = true := by
  unfold updateAssign
  simp

lemma placeObject_assign_mono (m : FrameModel) (sgd : Bool) (st : LayoutState)
    (k j : Nat) (h : (st.assign j).isSome = true) :
    ((placeObject m sgd st k).assign j).isSome = true :=
  updateAssign_isSome _ _ _ _ h

lemma placeObject_assign_self (m : FrameModel) (sgd : Bool) (st : LayoutState)
    (k : Nat) : ((placeObject m sgd st k).assign k).isSome = true :=
  updateAssign_isSome_self _ _ _

lemma placeCSObjectDown_assign_mono (m : FrameModel) (st : LayoutState)
    (k j : Nat) (h : (st.assign j).isSome = true) :
    ((placeCSObjectDown m st k).assign j).isSome = true :=
  updateAssign_isSome _ _ _ _ h

lemma placeCSObjectDown_assign_self (m : FrameModel) (st : LayoutState)
    (k : Nat) : ((placeCSObjectDown m st k).assign k).isSome = true :=
  updateAssign_isSome_self _ _ _

lemma placeCSObjectUp_assign_mono (m : FrameModel) (st : LayoutState)
    (k j : Nat) (h : (st.assign j).isSome = true) :
    ((placeCSObjectUp m st k).assign j).isSome = true :=
  updateAssign_isSome _ _ _ _ h

lemma placeCSObjectUp_assign_self (m : FrameModel) (st : LayoutState)
    (k : Nat) : ((placeCSObjectUp m st k).assign k).isSome = true :=
  updateAssign_isSome_self _ _ _

lemma foldl_assigns_mem : ∀ (step : LayoutState → Nat → LayoutState)
    (l : List Nat) (st : LayoutState) (k : Nat), k ∈ l →
    (∀ t x, ((step t x).assign x).isSome = true) →
    (∀ t x j, (t.assign j).isSome = true → ((step t x).assign j).isSome = true) →
    ((l.foldl step st).assign k).isSome = true
  | _, [], _, k, hk, _, _ => absurd hk (List.not_mem_nil k)
  | step, x :: xs, st, k, hk, hself, hmono => by
      rw [List.foldl_cons]
      rcases List.mem_cons.mp hk with rfl | hk2
      · exact foldl_preserves (fun s => (s.assign k).isSome = true) step xs _
          (fun t y _ ht => hmono t y k ht) (hself st k)
      · exact foldl_assigns_mem step xs _ k hk2 hself hmono

lemma foldl_updateAssign_isSome_mono : ∀ (map : List (Nat × Int))
    (g : Nat × Int → Int) (a0 : Nat → Option Int) (j : Nat),
    (a0 j).isSome = true →
    ((map.foldl (fun a e => updateAssign a e.1 (g e)) a0) j).isSome = true
  | [], _, _, _, h => h
  | e :: rest, g, a0, j, h => by
      rw [List.foldl_cons]
      exact foldl_updateAssign_isSome_mono rest g _ j (updateAssign_isSome _ _ _ _ h)

lemma foldl_updateAssign_isSome_of_mem : ∀ (map : List (Nat × Int))
    (g : Nat × Int → Int) (a0 : Nat → Option Int) (i : Nat) (s : Int),
    (i, s) ∈ map →
    ((map.foldl (fun a e => updateAssign a e.1 (g e)) a0) i).isSome = true
  | [], _, _, i, _, hmem => absurd hmem (List.not_mem_nil _)
  | e :: rest, g, a0, i, s, hmem => by
      rw [List.foldl_cons]
      rcases List.mem_cons.mp hmem with he | hrest
      · apply foldl_updateAssign_isSome_mono rest g _ i
        rw [← he]
        exact updateAssign_isSome_self _ _ _
      · exact foldl_updateAssign_isSome_of_mem rest g _ i s hrest

lemma csPhase_assign_mono (ctx : TargetFrameInfo) (m : FrameModel)
    (st : LayoutState) (j : Nat) (h : (st.assign j).isSome = true) :
    ((csPhase ctx m st).assign j).isSome = true := by
  unfold csPhase
  split
  · exact foldl_preserves (fun s => (s.assign j).isSome = true) _ _ _
      (fun t x _ ht => placeCSObjectDown_assign_mono m t x j ht) h
  · exact foldl_preserves (fun s => (s.assign j).isSome = true) _ _ _
      (fun t x _ ht => placeCSObjectUp_assign_mono m t x j ht) h

lemma csPhase_assigns (ctx : TargetFrameInfo) (m : FrameModel)
    (st : LayoutState) (i : Nat) (hmem : i ∈ csFrameIndices ctx) :
    ((csPhase ctx m st).assign i).isSome = true := by
  unfold csPhase
  split
  · exact foldl_assigns_mem _ _ _ i hmem
      (fun t x => placeCSObjectDown_assign_self m t x)
      (fun t x j ht => placeCSObjectDown_assign_mono m t x j ht)
  · exact foldl_assigns_mem _ _ _ i (List.mem_reverse.mpr hmem)
      (fun t x => placeCSObjectUp_assign_self m t x)
      (fun t x j ht => placeCSObjectUp_assign_mono m t x j ht)

lemma placeScavengingSlots_assign_mono (ctx : TargetFrameInfo) (m : FrameModel)
    (sgd : Bool) (st : LayoutState) (j : Nat) (h : (st.assign j).isSome = true) :
    ((placeScavengingSlots ctx m sgd st).assign j).isSome = true :=
  foldl_preserves (fun s => (s.assign j).isSome = true) _ _ _
    (fun t x _ ht => placeObject_assign_mono m sgd t x j ht) h

lemma placeScavengingSlots_assigns (ctx : TargetFrameInfo) (m : FrameModel)
    (sgd : Bool) (st : LayoutState) (i : Nat)
    (hmem : i ∈ ctx.scavengingFrameIndices) :
    ((placeScavengingSlots ctx m sgd st).assign i).isSome = true :=
  foldl_assigns_mem _ _ _ i hmem
    (fun t x => placeObject_assign_self m sgd t x)
    (fun t x j ht => placeObject_assign_mono m sgd t x j ht)

lemma earlyScavPhase_assign_mono (ctx : TargetFrameInfo) (m : FrameModel)
    (st : LayoutState) (j : Nat) (h : (st.assign j).isSome = true) :
    ((earlyScavPhase ctx m st).assign j).isSome = true := by
  unfold earlyScavPhase
  split
  · exact placeScavengingSlots_assign_mono ctx m _ st j h
  · exact h

lemma lateScavPhase_assign_mono (ctx : TargetFrameInfo) (m : FrameModel)
    (st : LayoutState) (j : Nat) (h : (st.assign j).isSome = true) :
    ((lateScavPhase ctx m st).assign j).isSome = true := by
  unfold lateScavPhase
  split
  · exact placeScavengingSlots_assign_mono ctx m _ st j h
  · exact h

lemma assignLocalBlock_assign_mono (m : FrameModel) (sgd : Bool)
    (st : LayoutState) (j : Nat) (h : (st.assign j).isSome = true) :
    ((assignLocalBlock m sgd st).assign j).isSome = true := by
  unfold assignLocalBlock
  split
  · exact foldl_updateAssign_isSome_mono _ _ _ j h
  · exact h

lemma assignLocalBlock_assigns (m : FrameModel) (sgd : Bool) (st : LayoutState)
    (i : Nat) (s : Int) (hu : m.useLocalStackAllocationBlock = true)
    (hmem : (i, s) ∈ m.localFrameObjectMap) :
    ((assignLocalBlock m sgd st).assign i).isSome = true := by
  unfold assignLocalBlock
  rw [if_pos hu]
  exact foldl_updateAssign_isSome_of_mem _ _ _ i s hmem

lemma protectorPhase_assign_mono (ctx : TargetFrameInfo) (m : FrameModel)
    (st : LayoutState) (j : Nat) (h : (st.assign j).isSome = true) :
    ((protectorPhase ctx m st).assign j).isSome = true := by
  unfold protectorPhase
  split
  · exact foldl_preserves (fun s => (s.assign j).isSome = true) _ _ _
      (fun t x _ ht => placeObject_assign_mono m _ t x j ht)
      (placeObject_assign_mono m _ st _ j h)
  · exact h

lemma protectorPhase_assigns_protector (ctx : TargetFrameInfo) (m : FrameModel)
    (st : LayoutState) (hpos : 0 ≤ m.stackProtectorIdx) :
    ((protectorPhase ctx m st).assign m.stackProtectorIdx.toNat).isSome = true := by
  unfold protectorPhase
  rw [if_pos hpos]
  exact foldl_preserves (fun s => (s.assign m.stackProtectorIdx.toNat).isSome = true)
    _ _ _ (fun t x _ ht => placeObject_assign_mono m _ t x _ ht)
    (placeObject_assign_self m _ st _)

lemma protectorPhase_assigns_large (ctx : TargetFrameInfo) (m : FrameModel)
    (st : LayoutState) (i : Nat) (hpos : 0 ≤ m.stackProtectorIdx)
    (hmem : i ∈ largeArrayObjs ctx m) :
    ((protectorPhase ctx m st).assign i).isSome = true := by
  unfold protectorPhase
  rw [if_pos hpos]
  exact foldl_assigns_mem _ _ _ i hmem
    (fun t x => placeObject_assign_self m _ t x)
    (fun t x j ht => placeObject_assign_mono m _ t x j ht)

lemma mainPhase_assign_mono (ctx : TargetFrameInfo) (m : FrameModel)
    (st : LayoutState) (j : Nat) (h : (st.assign j).isSome = true) :
    ((mainPhase ctx m st).assign j).isSome = true :=
  foldl_preserves (fun s => (s.assign j).isSome = true) _ _ _
    (fun t x _ ht => placeObject_assign_mono m _ t x j ht) h

lemma mainPhase_assigns (ctx : TargetFrameInfo) (m : FrameModel)
    (st : LayoutState) (i : Nat) (hmem : i ∈ remainingObjects ctx m) :
    ((mainPhase ctx m st).assign i).isSome = true :=
  foldl_assigns_mem _ _ _ i hmem
    (fun t x => placeObject_assign_self m _ t x)
    (fun t x j ht => placeObject_assign_mono m _ t x j ht)

lemma lateScavPhase_assigns (ctx : TargetFrameInfo) (m : FrameModel)
    (st : LayoutState) (i : Nat) (hrs : ctx.hasRegScavenger = true)
    (hearly : earlyScavengingSlots ctx = false)
    (hmem : i ∈ ctx.scavengingFrameIndices) :
    ((lateScavPhase ctx m st).assign i).isSome = true := by
  unfold lateScavPhase
  rw [if_pos (by rw [hrs, hearly]; rfl)]
  exact placeScavengingSlots_assigns ctx m _ st i hmem

lemma earlyScavPhase_assigns (ctx : TargetFrameInfo) (m : FrameModel)
    (st : LayoutState) (i : Nat) (hrs : ctx.hasRegScavenger = true)
    (hearly : earlyScavengingSlots ctx = true)
    (hmem : i ∈ ctx.scavengingFrameIndices) :
    ((earlyScavPhase ctx m st).assign i).isSome = true := by
  unfold earlyScavPhase
  rw [if_pos (by rw [hrs, hearly]; rfl)]
  exact placeScavengingSlots_assigns ctx m _ st i hmem

lemma mem_csFrameIndices (ctx : TargetFrameInfo) (i : Nat)
    (h : isCSFrameIndex ctx i = true) : i ∈ csFrameIndices ctx := by
  unfold isCSFrameIndex at h
  simp only [Bool.and_eq_true, decide_eq_true_eq] at h
  unfold csFrameIndices
  rw [if_pos (le_trans h.1 h.2)]
  exact List.mem_range'_1.mpr ⟨h.1, by omega⟩

lemma layoutPhases_assign_total (ctx : TargetFrameInfo) (m : FrameModel)
    (hwf : localBlockWellFormed ctx.stackGrowsDown m) (i : Nat)
    (hi : i < m.objects.length) (hdead : m.isDeadObjectIndex i = false) :
    (((layoutPhases ctx m).assign i)).isSome = true := by
  unfold layoutPhases
  by_cases h1 : (m.isObjectPreAllocated i && m.useLocalStackAllocationBlock) = true
  · rw [Bool.and_eq_true] at h1
    have hu : m.useLocalStackAllocationBlock = true := h1.2
    have hpre : m.isObjectPreAllocated i = true := h1.1
    obtain ⟨_, _, _, _, _, hcover⟩ := hwf hu
    obtain ⟨s, hs⟩ := hcover i hi hpre
    exact lateScavPhase_assign_mono ctx m _ i
      (mainPhase_assign_mono ctx m _ i
        (protectorPhase_assign_mono ctx m _ i
          (assignLocalBlock_assigns m ctx.stackGrowsDown _ i s hu hs)))
  by_cases h2 : isCSFrameIndex ctx i = true
  · exact lateScavPhase_assign_mono ctx m _ i
      (mainPhase_assign_mono ctx m _ i
        (protectorPhase_assign_mono ctx m _ i
          (assignLocalBlock_assign_mono m ctx.stackGrowsDown _ i
            (earlyScavPhase_assign_mono ctx m _ i
              (csPhase_assigns ctx m _ i (mem_csFrameIndices ctx i h2))))))
  by_cases h3 : (ctx.hasRegScavenger && isScavengingFrameIndex ctx i) = true
  · rw [Bool.and_eq_true] at h3
    have hrs : ctx.hasRegScavenger = true := h3.1
    have hmem : i ∈ ctx.scavengingFrameIndices := by
      have := h3.2
      unfold isScavengingFrameIndex at this
      simpa using this
    cases hearly : earlyScavengingSlots ctx with
    | true =>
        exact lateScavPhase_assign_mono ctx m _ i
          (mainPhase_assign_mono ctx m _ i
            (protectorPhase_assign_mono ctx m _ i
              (assignLocalBlock_assign_mono m ctx.stackGrowsDown _ i
                (earlyScavPhase_assigns ctx m _ i hrs hearly hmem))))
    | false => exact lateScavPhase_assigns ctx m _ i hrs hearly hmem
  by_cases h5 : decide (m.stackProtectorIdx = (i : Int)) = true
  · have hpidx : m.stackProtectorIdx = (i : Int) := of_decide_eq_true h5
    have hpos : 0 ≤ m.stackProtectorIdx := by rw [hpidx]; exact Int.ofNat_nonneg i
    have htn : m.stackProtectorIdx.toNat = i := by rw [hpidx]; exact Int.toNat_ofNat i
    exact lateScavPhase_assign_mono ctx m _ i
      (mainPhase_assign_mono ctx m _ i
        (htn ▸ protectorPhase_assigns_protector ctx m _ hpos))
  by_cases h6 : (protectedObjs ctx m).contains i = true
  · have hmem : i ∈ protectedObjs ctx m := by simpa using h6
    have hpos : 0 ≤ m.stackProtectorIdx := by
      unfold protectedObjs at hmem
      by_contra hneg
      rw [if_neg hneg] at hmem
      exact List.not_mem_nil i hmem
    have hmem2 : i ∈ largeArrayObjs ctx m := by
      unfold protectedObjs at hmem
      rwa [if_pos hpos] at hmem
    exact lateScavPhase_assign_mono ctx m _ i
      (mainPhase_assign_mono ctx m _ i
        (protectorPhase_assigns_large ctx m _ i hpos hmem2))
  · have hmem : i ∈ remainingObjects ctx m := by
      unfold remainingObjects
      rw [List.mem_filter]
      refine ⟨List.mem_range.mpr hi, ?_⟩
      simp only [Bool.and_eq_true, Bool.not_eq_eq_eq_not, Bool.not_true]
      exact ⟨⟨⟨⟨⟨by rwa [Bool.not_eq_true] at h1, by rwa [Bool.not_eq_true] at h2⟩,
        by rwa [Bool.not_eq_true] at h3⟩, hdead⟩,
        by rwa [Bool.not_eq_true] at h5⟩, by rwa [Bool.not_eq_true] at h6⟩
    exact lateScavPhase_assign_mono ctx m _ i (mainPhase_assigns ctx m _ i hmem)


lemma applyAssignments_getElem? (objs : List StackObject) (a : Nat → Option Int)
    (i : Nat) :
    (applyAssignments objs a)[i]? = (objs[i]?).map (fun o =>
      match a i with
      | some v => { o with offset := v }
      | none => o) := by
  by_cases hi : i < objs.length
  · have hi2 : i < (applyAssignments objs a).length := by
      rw [applyAssignments, List.length_mapIdx]
      exact hi
    rw [List.getElem?_eq_getElem hi2, List.getElem?_eq_getElem hi]
    have hmap := List.get_mapIdx objs (fun k o =>
      match a k with
      | some v => { o with offset := v }
      | none => o) i hi
    rw [List.get_eq_getElem, List.get_eq_getElem] at hmap
    rw [Option.map_some']
    exact congrArg some hmap
  · have hle : objs.length ≤ i := le_of_not_lt hi
    rw [List.getElem?_eq_none hle,
      List.getElem?_eq_none (by rw [applyAssignments, List.length_mapIdx]; exact hle)]
    rfl

lemma applyAssignments_offset (objs : List StackObject) (a : Nat → Option Int)
    (i : Nat) (v : Int) (hi : i < objs.length) (hv : a i = some v) :
    ((applyAssignments objs a).getD i emptyStackObject).offset = v := by
  rw [List.getD_eq_getElem?_getD, applyAssignments_getElem?,
    List.getElem?_eq_getElem hi]
  simp [hv]

lemma applyAssignments_size (objs : List StackObject) (a : Nat → Option Int)
    (i : Nat) :
    ((applyAssignments objs a).getD i emptyStackObject).size =
      (objs.getD i emptyStackObject).size := by
  rw [List.getD_eq_getElem?_getD, List.getD_eq_getElem?_getD,
    applyAssignments_getElem?]
  cases objs[i]? with
  | none => rfl
  | some o =>
      cases h : a i with
      | none => simp [h]
      | some v => simp [h]

lemma runLayout_eq_some (ctx : TargetFrameInfo) (m : FrameModel)
    (h : ¬ adjustedLocalAreaOffset ctx < 0) :
    runLayout ctx m = some (layoutPhases ctx m) := by
  unfold runLayout
  rw [if_neg h]

/-- C1: after offset assignment completes, any two distinct live (non-dead),
non-fixed objects of positive size have disjoint half-open byte ranges
`[offset, offset + size)`, for the given growth direction.  The hypotheses are
the well-formedness facts the surrounding pipeline guarantees: every object
alignment is positive, and the precomputed local block (when enabled) maps
exactly the pre-allocated objects to disjoint in-block ranges. -/
theorem calculateFrameObjectOffsets_no_overlap (ctx : TargetFrameInfo)
    (m m2 : FrameModel) (h : calculateFrameObjectOffsets ctx m = some m2)
    (halign : ∀ o ∈ m.objects, 0 < o.alignment)
    (hwf : localBlockWellFormed ctx.stackGrowsDown m)
    (i j : Nat) (hi : i < m.objects.length) (hj : j < m.objects.length)
    (hij : i ≠ j)
    (hdi : m.isDeadObjectIndex i = false) (hdj : m.isDeadObjectIndex j = false)
    (hsi : 0 < m.getObjectSize i) (hsj : 0 < m.getObjectSize j) :
    m2.getObjectOffset i + m2.getObjectSize i ≤ m2.getObjectOffset j ∨
    m2.getObjectOffset j + m2.getObjectSize j ≤ m2.getObjectOffset i := by
  have hlao : ¬ adjustedLocalAreaOffset ctx < 0 := by
    intro hlt
    unfold calculateFrameObjectOffsets runLayout at h
    rw [if_pos hlt] at h
    exact Option.noConfusion h
  unfold calculateFrameObjectOffsets at h
  rw [runLayout_eq_some ctx m hlao] at h
  have hm2 : m2 = { m with
      objects := applyAssignments m.objects (layoutPhases ctx m).assign,
      stackSize := m2.stackSize } := by
    have := (Option.some.inj h).symm
    rw [this]
  have hinv := layoutPhases_inv ctx m halign hwf (not_lt.mp hlao)
  have htoti := layoutPhases_assign_total ctx m hwf i hi hdi
  have htotj := layoutPhases_assign_total ctx m hwf j hj hdj
  obtain ⟨vi, hvi⟩ := Option.isSome_iff_exists.mp htoti
  obtain ⟨vj, hvj⟩ := Option.isSome_iff_exists.mp htotj
  have hoi : m2.getObjectOffset i = vi := by
    rw [hm2]
    exact applyAssignments_offset m.objects _ i vi hi hvi
  have hoj : m2.getObjectOffset j = vj := by
    rw [hm2]
    exact applyAssignments_offset m.objects _ j vj hj hvj
  have hsi2 : m2.getObjectSize i = m.getObjectSize i := by
    rw [hm2]
    exact applyAssignments_size m.objects _ i
  have hsj2 : m2.getObjectSize j = m.getObjectSize j := by
    rw [hm2]
    exact applyAssignments_size m.objects _ j
  rw [hoi, hoj, hsi2, hsj2]
  exact hinv.2.2.2 i j vi vj hvi hvj hij

/-- Witness for C1: the two 4-byte objects of exModelC1 land at -4 and -8,
whose 4-byte ranges are disjoint. -/
theorem calculateFrameObjectOffsets_no_overlap_witness :
    exModelC1res.getObjectOffset 0 + exModelC1res.getObjectSize 0 ≤
      exModelC1res.getObjectOffset 1 ∨
    exModelC1res.getObjectOffset 1 + exModelC1res.getObjectSize 1 ≤
      exModelC1res.getObjectOffset 0 :=
  calculateFrameObjectOffsets_no_overlap exCtxC1 exModelC1 exModelC1res
    (by decide) (by decide) (fun hu => absurd hu (by decide)) 0 1
    (by decide) (by decide) (by decide) (by decide) (by decide)
    (by decide) (by decide)


lemma land_highmask (x k : Nat) (hk : k ≤ 64) (hx : x < 2 ^ 64) :
    x &&& (2 ^ 64 - 2 ^ k) = x / 2 ^ k * 2 ^ k := by
  apply Nat.eq_of_testBit_eq
  intro i
  rw [Nat.testBit_land]
  have hmask : 2 ^ 64 - 2 ^ k = 2 ^ k * (2 ^ (64 - k) - 1) := by
    rw [Nat.mul_sub_one, ← pow_add]
    congr 2
    omega
  rw [hmask, Nat.testBit_mul_pow_two, mul_comm (x / 2 ^ k),
    ← Nat.shiftRight_eq_div_pow, Nat.testBit_mul_pow_two, Nat.testBit_shiftRight,
    Nat.testBit_two_pow_sub_one]
  by_cases hik : k ≤ i
  · have hadd : k + (i - k) = i := by omega
    rw [hadd]
    by_cases hi64 : i < 64
    · have h1 : i - k < 64 - k := by omega
      simp [hik, h1]
    · have hxi : x.testBit i = false :=
        Nat.testBit_lt_two_pow (lt_of_lt_of_le hx (Nat.pow_le_pow_right (by omega) (by omega)))
      simp [hxi]
  · simp [hik]

lemma maskRound_eq_roundUp (off : Int) (k : Nat) (hoff : 0 ≤ off) (hk : k ≤ 64)
    (hbound : off + ((2 ^ k - 1 : Nat) : Int) < 2 ^ 64) :
    maskRound off (2 ^ k) = roundUp off (2 ^ k) := by
  show (((off + ((2 ^ k - 1 : Nat) : Int)).toNat &&&
    (2 ^ 64 - 1 - (2 ^ k - 1)) : Nat) : Int) = roundUp off (2 ^ k)
  have h2k : (1 : Nat) ≤ 2 ^ k := Nat.one_le_two_pow
  have hnn : (0 : Int) ≤ off + ((2 ^ k - 1 : Nat) : Int) := by positivity
  have htn : ((off + ((2 ^ k - 1 : Nat) : Int)).toNat : Int) =
      off + ((2 ^ k - 1 : Nat) : Int) := Int.toNat_of_nonneg hnn
  have hxlt : (off + ((2 ^ k - 1 : Nat) : Int)).toNat < 2 ^ 64 := by
    have := hbound
    omega
  have hcompl : 2 ^ 64 - 1 - (2 ^ k - 1) = 2 ^ 64 - 2 ^ k := by
    have : (2 : Nat) ^ k ≤ 2 ^ 64 := Nat.pow_le_pow_right (by omega) hk
    omega
  rw [hcompl, land_highmask _ k hk hxlt]
  rw [roundUp_eq_ediv_mul off (2 ^ k) hoff (by positivity)]
  push_cast
  rw [htn]
  have harg : off + ((2 ^ k - 1 : Nat) : Int) = off + (2 : Int) ^ k - 1 := by
    have h1 : ((2 ^ k - 1 : Nat) : Int) = (2 : Int) ^ k - 1 := by
      push_cast [h2k]
      ring
    omega
  rw [harg]

lemma layoutPhases_offset_ge (ctx : TargetFrameInfo) (m : FrameModel)
    (halign : ∀ o ∈ m.objects, 0 < o.alignment)
    (hwf : localBlockWellFormed ctx.stackGrowsDown m)
    (h0 : 0 ≤ adjustedLocalAreaOffset ctx) :
    adjustedLocalAreaOffset ctx ≤ (layoutPhases ctx m).offset :=
  (layoutPhases_inv ctx m halign hwf h0).1

lemma calculateFrameObjectOffsets_stackSize_eq (ctx : TargetFrameInfo)
    (m mr : FrameModel) (h : calculateFrameObjectOffsets ctx m = some mr)
    (hround : ctx.targetHandlesFrameRounding = false) :
    mr.stackSize = maskRound (preRoundOffset ctx m) (resolvedStackAlign ctx m) -
      adjustedLocalAreaOffset ctx := by
  have hlao : ¬ adjustedLocalAreaOffset ctx < 0 := by
    intro hlt
    unfold calculateFrameObjectOffsets runLayout at h
    rw [if_pos hlt] at h
    exact Option.noConfusion h
  unfold calculateFrameObjectOffsets at h
  rw [runLayout_eq_some ctx m hlao] at h
  have hmr := (Option.some.inj h).symm
  rw [hmr]
  unfold frameRounding preRoundOffset resolvedStackAlign
  rw [runLayout_eq_some ctx m hlao]
  simp only [hround, Bool.not_false, if_pos]

/-- C3 counterexample: with a -8 local-area offset on a downward-growing
16-byte-aligned target and an empty frame, the computed stack size is 8, which
is not a multiple of the resolved stack alignment 16 — the claim as stated is
false because the rounded offset, not the stack size, is the multiple, and the
two differ by the local-area offset. -/
theorem calculateFrameObjectOffsets_stackSize_not_multiple :
    (calculateFrameObjectOffsets exCtxC3 emptyModel).map FrameModel.stackSize =
        some 8 ∧
      resolvedStackAlign exCtxC3 emptyModel = 16 ∧
      ¬ ((16 : Int) ∣ 8) := by
  refine ⟨by decide, by decide, by decide⟩

/-- C3 (amended): for a target that does not handle its own frame rounding,
with a power-of-two resolved stack alignment and no 64-bit overflow in the
rounding, the final stack size is non-negative and the stack size plus the
sign-adjusted local-area offset (the rounded final offset) is a multiple of
the resolved stack alignment; the stack size itself is such a multiple
exactly when the resolved alignment divides the sign-adjusted local-area
offset (in particular, whenever that offset is zero). -/
theorem calculateFrameObjectOffsets_stackSize_multiple (ctx : TargetFrameInfo)
    (m mr : FrameModel) (h : calculateFrameObjectOffsets ctx m = some mr)
    (hround : ctx.targetHandlesFrameRounding = false)
    (halign : ∀ o ∈ m.objects, 0 < o.alignment)
    (hwf : localBlockWellFormed ctx.stackGrowsDown m)
    (k : Nat) (hk : k ≤ 64)
    (hpow : resolvedStackAlign ctx m = 2 ^ k)
    (hbound : preRoundOffset ctx m + ((2 ^ k - 1 : Nat) : Int) < 2 ^ 64) :
    0 ≤ mr.stackSize ∧
      (resolvedStackAlign ctx m : Int) ∣
        (mr.stackSize + adjustedLocalAreaOffset ctx) ∧
      ((resolvedStackAlign ctx m : Int) ∣ mr.stackSize ↔
        (resolvedStackAlign ctx m : Int) ∣ adjustedLocalAreaOffset ctx) := by
  have hlao : ¬ adjustedLocalAreaOffset ctx < 0 := by
    intro hlt
    unfold calculateFrameObjectOffsets runLayout at h
    rw [if_pos hlt] at h
    exact Option.noConfusion h
  have h0 : 0 ≤ adjustedLocalAreaOffset ctx := not_lt.mp hlao
  have hoffge : adjustedLocalAreaOffset ctx ≤ (layoutPhases ctx m).offset :=
    layoutPhases_offset_ge ctx m halign hwf h0
  have hprege : (layoutPhases ctx m).offset ≤ preRoundOffset ctx m := by
    unfold preRoundOffset
    rw [runLayout_eq_some ctx m hlao]
    dsimp only
    split
    · omega
    · exact le_refl _
  have hpre0 : 0 ≤ preRoundOffset ctx m := le_trans (le_trans h0 hoffge) hprege
  have hss := calculateFrameObjectOffsets_stackSize_eq ctx m mr h hround
  rw [hpow] at hss
  rw [maskRound_eq_roundUp _ k hpre0 hk hbound] at hss
  have hge := roundUp_ge (preRoundOffset ctx m) (2 ^ k) hpre0 (by positivity)
  have hdvd : (resolvedStackAlign ctx m : Int) ∣
      (mr.stackSize + adjustedLocalAreaOffset ctx) := by
    have hdvd0 := roundUp_dvd (preRoundOffset ctx m) (2 ^ k)
    have : mr.stackSize + adjustedLocalAreaOffset ctx =
        roundUp (preRoundOffset ctx m) (2 ^ k) := by omega
    rw [this, hpow]
    exact hdvd0
  refine ⟨by omega, hdvd, ?_, ?_⟩
  · intro hs
    have hsub := dvd_sub hdvd hs
    simpa using hsub
  · intro hl
    have hsub := dvd_sub hdvd hl
    simpa using hsub

/-- Witness for the amended C3 at a concrete input: the exModelC1 layout has
resolved alignment 4 = 2^2, local-area offset 0 and stack size 8, a
non-negative multiple of 4. -/
theorem calculateFrameObjectOffsets_stackSize_multiple_witness :
    0 ≤ exModelC1res.stackSize ∧
      (resolvedStackAlign exCtxC1 exModelC1 : Int) ∣
        (exModelC1res.stackSize + adjustedLocalAreaOffset exCtxC1) ∧
      ((resolvedStackAlign exCtxC1 exModelC1 : Int) ∣ exModelC1res.stackSize ↔
        (resolvedStackAlign exCtxC1 exModelC1 : Int) ∣
          adjustedLocalAreaOffset exCtxC1) :=
  calculateFrameObjectOffsets_stackSize_multiple exCtxC1 exModelC1 exModelC1res
    (by decide) (by decide) (by decide) (fun hu => absurd hu (by decide)) 2
    (by decide) (by decide) (by decide)


lemma objInput_getD_eq (l1 l2 : List StackObject)
    (h : l1.map objInput = l2.map objInput) (i : Nat) :
    objInput (l1.getD i emptyStackObject) = objInput (l2.getD i emptyStackObject) := by
  have hi := congrArg (fun l => l[i]?) h
  simp only [List.getElem?_map] at hi
  rw [List.getD_eq_getElem?_getD, List.getD_eq_getElem?_getD]
  cases h1 : l1[i]? with
  | none =>
      cases h2 : l2[i]? with
      | none => rfl
      | some o2 => rw [h1, h2] at hi; exact Option.noConfusion hi
  | some o1 =>
      cases h2 : l2[i]? with
      | none => rw [h1, h2] at hi; exact Option.noConfusion hi
      | some o2 =>
          rw [h1, h2] at hi
          simp only [Option.map_some'] at hi
          simpa using Option.some.inj hi

lemma runLayout_congr (ctx : TargetFrameInfo) (m1 m2 : FrameModel)
    (h : layoutInputs m1 = layoutInputs m2) :
    runLayout ctx m1 = runLayout ctx m2 := by
  unfold layoutInputs at h
  simp only [Prod.mk.injEq] at h
  obtain ⟨hobj, hfix, hmaxal, hadj, hmcfs, hvar, hspi, huse, hlfs, hlfa, hmap⟩ := h
  have hin : ∀ i, objInput (m1.objects.getD i emptyStackObject) =
      objInput (m2.objects.getD i emptyStackObject) :=
    objInput_getD_eq _ _ hobj
  have hsz : ∀ i, m1.getObjectSize i = m2.getObjectSize i := fun i =>
    congrArg (fun p => p.1) (hin i)
  have hal : ∀ i, m1.getObjectAlignment i = m2.getObjectAlignment i := fun i =>
    congrArg (fun p => p.2.1) (hin i)
  have hdead : ∀ i, m1.isDeadObjectIndex i = m2.isDeadObjectIndex i := fun i =>
    congrArg (fun p => p.2.2.1) (hin i)
  have hpre : ∀ i, m1.isObjectPreAllocated i = m2.isObjectPreAllocated i := fun i =>
    congrArg (fun p => p.2.2.2.1) (hin i)
  have hssp : ∀ i, m1.sspLayout i = m2.sspLayout i := fun i =>
    congrArg (fun p => p.2.2.2.2) (hin i)
  have hlen : m1.objects.length = m2.objects.length := by
    have := congrArg List.length hobj
    simpa using this
  have hADJ : ∀ i sgd off ma, AdjustStackOffset m1 i sgd off ma =
      AdjustStackOffset m2 i sgd off ma := by
    intro i sgd off ma
    unfold AdjustStackOffset
    rw [hsz i, hal i]
  have hPO : placeObject m1 = placeObject m2 := by
    funext sgd st i
    unfold placeObject
    rw [hADJ]
  have hCSD : placeCSObjectDown m1 = placeCSObjectDown m2 := by
    funext st i
    unfold placeCSObjectDown
    rw [hsz i, hal i]
  have hCSU : placeCSObjectUp m1 = placeCSObjectUp m2 := by
    funext st i
    unfold placeCSObjectUp
    rw [hsz i, hal i]
  have hLA : largeArrayObjs ctx m1 = largeArrayObjs ctx m2 := by
    unfold largeArrayObjs
    rw [hlen]
    congr 1
    funext i
    rw [hpre i, huse, hdead i, hspi, hssp i]
  have hPROT : protectedObjs ctx m1 = protectedObjs ctx m2 := by
    unfold protectedObjs
    rw [hspi, hLA]
  have hREM : remainingObjects ctx m1 = remainingObjects ctx m2 := by
    unfold remainingObjects
    rw [hlen]
    congr 1
    funext i
    rw [hpre i, huse, hdead i, hspi, hPROT]
  have hALB : assignLocalBlock m1 = assignLocalBlock m2 := by
    funext sgd st
    unfold assignLocalBlock
    rw [huse, hlfa, hmap, hlfs]
  have hFPO : fixedPushOffset ctx m1 = fixedPushOffset ctx m2 := by
    unfold fixedPushOffset
    rw [hfix]
  have hILS : initialLayoutState ctx m1 = initialLayoutState ctx m2 := by
    unfold initialLayoutState
    rw [hFPO]
  have hCSP : csPhase ctx m1 = csPhase ctx m2 := by
    funext st
    unfold csPhase
    rw [hCSD, hCSU]
  have hMAR : maxAlignReset m1 = maxAlignReset m2 := by
    funext st
    unfold maxAlignReset
    rw [hmaxal]
  have hPSS : placeScavengingSlots ctx m1 = placeScavengingSlots ctx m2 := by
    funext sgd st
    unfold placeScavengingSlots
    rw [hPO]
  have hESP : earlyScavPhase ctx m1 = earlyScavPhase ctx m2 := by
    funext st
    unfold earlyScavPhase
    rw [hPSS]
  have hLSP : lateScavPhase ctx m1 = lateScavPhase ctx m2 := by
    funext st
    unfold lateScavPhase
    rw [hPSS]
  have hPP : protectorPhase ctx m1 = protectorPhase ctx m2 := by
    funext st
    unfold protectorPhase
    rw [hspi, hPO, hLA]
  have hMP : mainPhase ctx m1 = mainPhase ctx m2 := by
    funext st
    unfold mainPhase
    rw [hREM, hPO]
  have hLP : layoutPhases ctx m1 = layoutPhases ctx m2 := by
    unfold layoutPhases
    rw [hLSP, hMP, hPP, hALB, hESP, hMAR, hCSP, hILS]
  unfold runLayout
  rw [hLP]

lemma applyAssignments_map_objInput (objs : List StackObject)
    (a : Nat → Option Int) :
    (applyAssignments objs a).map objInput = objs.map objInput := by
  apply List.ext_getElem?
  intro i
  simp only [List.getElem?_map, applyAssignments_getElem?]
  cases objs[i]? with
  | none => rfl
  | some o =>
      simp only [Option.map_some']
      cases h : a i with
      | none => rfl
      | some v => rfl

lemma applyAssignments_idem (objs : List StackObject) (a : Nat → Option Int) :
    applyAssignments (applyAssignments objs a) a = applyAssignments objs a := by
  apply List.ext_getElem?
  intro i
  rw [applyAssignments_getElem?, applyAssignments_getElem?]
  cases objs[i]? with
  | none => rfl
  | some o =>
      simp only [Option.map_some']
      cases h : a i with
      | none => rfl
      | some v => simp [h]

/-- C8: running offset assignment a second time on an already-assigned frame
model, with no objects added, removed, resized or realigned in between,
reproduces the model exactly — every offset and the final stack size are
unchanged. -/
theorem calculateFrameObjectOffsets_idempotent (ctx : TargetFrameInfo)
    (m mr : FrameModel) (h : calculateFrameObjectOffsets ctx m = some mr) :
    calculateFrameObjectOffsets ctx mr = some mr := by
  have hlao : ¬ adjustedLocalAreaOffset ctx < 0 := by
    intro hlt
    unfold calculateFrameObjectOffsets runLayout at h
    rw [if_pos hlt] at h
    exact Option.noConfusion h
  unfold calculateFrameObjectOffsets at h
  rw [runLayout_eq_some ctx m hlao] at h
  have hmr := (Option.some.inj h).symm
  have hli : layoutInputs mr = layoutInputs m := by
    rw [hmr]
    unfold layoutInputs
    simp only [applyAssignments_map_objInput]
  have hrl : runLayout ctx mr = runLayout ctx m := runLayout_congr ctx mr m hli
  have hlp : layoutPhases ctx mr = layoutPhases ctx m := by
    have h1 := hrl
    rw [runLayout_eq_some ctx mr hlao, runLayout_eq_some ctx m hlao] at h1
    exact Option.some.inj h1
  have hadj2 : mr.adjustsStack = m.adjustsStack := by rw [hmr]
  have hmcfs2 : mr.maxCallFrameSize = m.maxCallFrameSize := by rw [hmr]
  have hvar2 : mr.hasVarSizedObjects = m.hasVarSizedObjects := by rw [hmr]
  have hlen2 : mr.objects.length = m.objects.length := by
    rw [hmr]
    exact List.length_mapIdx
  have hsac : stackAlignChoice ctx mr = stackAlignChoice ctx m := by
    unfold stackAlignChoice
    rw [hadj2, hvar2, hlen2]
  have hFR : frameRounding ctx mr (layoutPhases ctx m) =
      frameRounding ctx m (layoutPhases ctx m) := by
    unfold frameRounding
    rw [hadj2, hmcfs2, hsac]
  have hmro : mr.objects = applyAssignments m.objects (layoutPhases ctx m).assign := by
    rw [hmr]
  have hobj2 : applyAssignments mr.objects (layoutPhases ctx m).assign =
      mr.objects := by
    rw [hmro, applyAssignments_idem]
  have hss2 : frameRounding ctx mr (layoutPhases ctx m) -
      adjustedLocalAreaOffset ctx = mr.stackSize := by
    rw [hFR, hmr]
  unfold calculateFrameObjectOffsets
  rw [runLayout_eq_some ctx mr hlao, hlp]
  dsimp only
  rw [hobj2, hss2]

/-- Witness for C8 at a concrete input: re-running offset assignment on the
already-assigned exModelC1res reproduces it. -/
theorem calculateFrameObjectOffsets_idempotent_witness :
    calculateFrameObjectOffsets exCtxC1 exModelC1res = some exModelC1res :=
  calculateFrameObjectOffsets_idempotent exCtxC1 exModelC1 exModelC1res (by decide)


lemma callsInfo_foldl_spec : ∀ (l : List Instr) (mx : Nat) (adj : Bool),
    (l.foldl callsInfoStep (mx, adj)).1 = (l.filterMap pseudoAmt).foldl max mx ∧
    (l.foldl callsInfoStep (mx, adj)).2 =
      (adj || l.any (fun i => (pseudoAmt i).isSome) ||
        l.any (fun i =>
          match i with
          | .inlineAsm a => a
          | _ => false))
  | [], mx, adj => by simp
  | i :: rest, mx, adj => by
      obtain ⟨ih1, ih2⟩ := callsInfo_foldl_spec rest (callsInfoStep (mx, adj) i).1
        (callsInfoStep (mx, adj) i).2
      cases i with
      | frameSetup n =>
          have hstep : (callsInfoStep (mx, adj) (Instr.frameSetup n)).1 = max mx n := by
            simp only [callsInfoStep]
            by_cases h : n > mx
            · rw [if_pos h, Nat.max_eq_right (Nat.le_of_lt h)]
            · rw [if_neg h, Nat.max_eq_left (Nat.le_of_not_lt h)]
          refine ⟨?_, ?_⟩
          · rw [List.foldl_cons, ih1, hstep]
            simp only [pseudoAmt, List.filterMap_cons, List.foldl_cons]
          · rw [List.foldl_cons, ih2]
            simp [callsInfoStep, pseudoAmt]
      | frameDestroy n =>
          have hstep : (callsInfoStep (mx, adj) (Instr.frameDestroy n)).1 = max mx n := by
            simp only [callsInfoStep]
            by_cases h : n > mx
            · rw [if_pos h, Nat.max_eq_right (Nat.le_of_lt h)]
            · rw [if_neg h, Nat.max_eq_left (Nat.le_of_not_lt h)]
          refine ⟨?_, ?_⟩
          · rw [List.foldl_cons, ih1, hstep]
            simp only [pseudoAmt, List.filterMap_cons, List.foldl_cons]
          · rw [List.foldl_cons, ih2]
            simp [callsInfoStep, pseudoAmt]
      | inlineAsm a =>
          refine ⟨?_, ?_⟩
          · rw [List.foldl_cons, ih1]
            simp [callsInfoStep, pseudoAmt]
          · rw [List.foldl_cons, ih2]
            simp only [callsInfoStep, pseudoAmt, List.any_cons]
            cases adj <;> cases a <;> simp
      | frameRef idx =>
          exact ⟨by rw [List.foldl_cons, ih1]; simp [callsInfoStep, pseudoAmt],
            by rw [List.foldl_cons, ih2]; simp [callsInfoStep, pseudoAmt]⟩
      | resolvedRef idx adj2 =>
          exact ⟨by rw [List.foldl_cons, ih1]; simp [callsInfoStep, pseudoAmt],
            by rw [List.foldl_cons, ih2]; simp [callsInfoStep, pseudoAmt]⟩
      | csLoad r =>
          exact ⟨by rw [List.foldl_cons, ih1]; simp [callsInfoStep, pseudoAmt],
            by rw [List.foldl_cons, ih2]; simp [callsInfoStep, pseudoAmt]⟩
      | ret =>
          exact ⟨by rw [List.foldl_cons, ih1]; simp [callsInfoStep, pseudoAmt],
            by rw [List.foldl_cons, ih2]; simp [callsInfoStep, pseudoAmt]⟩
      | branch =>
          exact ⟨by rw [List.foldl_cons, ih1]; simp [callsInfoStep, pseudoAmt],
            by rw [List.foldl_cons, ih2]; simp [callsInfoStep, pseudoAmt]⟩
      | other =>
          exact ⟨by rw [List.foldl_cons, ih1]; simp [callsInfoStep, pseudoAmt],
            by rw [List.foldl_cons, ih2]; simp [callsInfoStep, pseudoAmt]⟩

lemma foldl_max_init_le : ∀ (l : List Nat) (a : Nat), a ≤ l.foldl max a
  | [], _ => le_refl _
  | x :: rest, a => by
      rw [List.foldl_cons]
      exact le_trans (le_max_left a x) (foldl_max_init_le rest _)

lemma foldl_max_le_mem : ∀ (l : List Nat) (mx n : Nat), n ∈ l → n ≤ l.foldl max mx
  | [], _, _, hn => absurd hn (List.not_mem_nil _)
  | a :: rest, mx, n, hn => by
      rw [List.foldl_cons]
      rcases List.mem_cons.mp hn with rfl | hn2
      · exact le_trans (le_max_right mx n) (foldl_max_init_le rest _)
      · exact foldl_max_le_mem rest _ n hn2

lemma foldl_max_mem_or_init : ∀ (l : List Nat) (mx : Nat),
    l.foldl max mx = mx ∨ l.foldl max mx ∈ l
  | [], mx => Or.inl rfl
  | a :: rest, mx => by
      rw [List.foldl_cons]
      rcases foldl_max_mem_or_init rest (max mx a) with h | h
      · rw [h]
        rcases Nat.le_total mx a with hle | hle
        · right
          rw [Nat.max_eq_right hle]
          exact List.mem_cons_self _ _
        · left
          rw [Nat.max_eq_left hle]
      · right
        exact List.mem_cons_of_mem _ h

/-- C5: after call-frame pseudo elimination on a function whose target defines
a call-frame setup or destroy opcode, the maximum outgoing call-frame size is
the maximum immediate carried by any setup/destroy pseudo-marker (zero when
there are none), and the adjusts-stack flag holds exactly when it already
did, some pseudo-marker exists, or some inline asm carries the align-stack
marker. -/
theorem calculateCallsInformation_spec (blocks : List (List Instr))
    (m : FrameModel) :
    (∀ n ∈ pseudoAmounts blocks,
      n ≤ (calculateCallsInformation true blocks m).maxCallFrameSize) ∧
    ((calculateCallsInformation true blocks m).maxCallFrameSize = 0 ∨
      (calculateCallsInformation true blocks m).maxCallFrameSize ∈
        pseudoAmounts blocks) ∧
    (calculateCallsInformation true blocks m).adjustsStack =
      (m.adjustsStack || hasCallFramePseudo blocks || hasAlignStackAsm blocks) := by
  have hfold : blocks.foldl (fun acc b => b.foldl callsInfoStep acc)
      (0, m.adjustsStack) = blocks.flatten.foldl callsInfoStep (0, m.adjustsStack) :=
    (List.foldl_flatten _ _ _).symm
  have hspec := callsInfo_foldl_spec blocks.flatten 0 m.adjustsStack
  have hcalc : calculateCallsInformation true blocks m =
      { m with
          maxCallFrameSize := (blocks.flatten.foldl callsInfoStep (0, m.adjustsStack)).1,
          adjustsStack := (blocks.flatten.foldl callsInfoStep (0, m.adjustsStack)).2 } := by
    unfold calculateCallsInformation
    rw [if_neg (by simp : ¬ ((!true : Bool) = true))]
    rw [hfold]
  rw [hcalc]
  refine ⟨?_, ?_, ?_⟩
  · intro n hn
    dsimp only
    rw [hspec.1]
    exact foldl_max_le_mem _ 0 n hn
  · dsimp only
    rw [hspec.1]
    exact foldl_max_mem_or_init (pseudoAmounts blocks) 0
  · dsimp only
    rw [hspec.2]
    rfl

/-- Witness for C5 at a concrete input: one block with a 16-byte and a 24-byte
pseudo pair gives maximum call-frame size 24 and sets the adjusts-stack flag. -/
theorem calculateCallsInformation_spec_witness :
    (24 ∈ pseudoAmounts [[Instr.frameSetup 16, Instr.frameDestroy 24]] ∧
      24 ≤ (calculateCallsInformation true
        [[Instr.frameSetup 16, Instr.frameDestroy 24]] emptyModel).maxCallFrameSize) ∧
    (calculateCallsInformation true [[Instr.frameSetup 16, Instr.frameDestroy 24]]
        emptyModel).adjustsStack = true := by
  refine ⟨⟨by decide, ?_⟩, ?_⟩
  · exact (calculateCallsInformation_spec
      [[Instr.frameSetup 16, Instr.frameDestroy 24]] emptyModel).1 24 (by decide)
  · rw [(calculateCallsInformation_spec
      [[Instr.frameSetup 16, Instr.frameDestroy 24]] emptyModel).2.2]
    decide

lemma allocateCSSlot_record (ctx : CSRContext)
    (st : FrameModel × Nat × Nat × List (Nat × Int)) (reg : Nat) :
    ((allocateCSSlot ctx st reg).2.2.2).map Prod.fst =
      st.2.2.2.map Prod.fst ++ [reg] := by
  obtain ⟨m, minCS, maxCS, csi⟩ := st
  unfold allocateCSSlot
  cases ctx.reservedSpillSlot reg with
  | some fi => simp
  | none =>
      cases ctx.fixedSpillSlots.find? (fun s => s.1 = reg) with
      | none => simp
      | some slot => simp

lemma foldl_allocateCSSlot_records : ∀ (regs : List Nat) (ctx : CSRContext)
    (st : FrameModel × Nat × Nat × List (Nat × Int)),
    ((regs.foldl (allocateCSSlot ctx) st).2.2.2).map Prod.fst =
      st.2.2.2.map Prod.fst ++ regs
  | [], _, _ => by simp
  | r :: rest, ctx, st => by
      rw [List.foldl_cons, foldl_allocateCSSlot_records rest ctx _,
        allocateCSSlot_record]
      simp

/-- C6: for a non-naked function (with no prior callee-saved records),
callee-saved placement creates one record per register of the target's
callee-saved list that the register-use tracking shows written — every listed
register when the function requires full preservation — preserving the list's
order; for a naked function it creates no records and no stack objects (the
model is untouched). -/
theorem calculateCalleeSavedRegisters_spec (ctx : CSRContext) (m : FrameModel) :
    (ctx.naked = false → m.csInfo = [] →
      (calculateCalleeSavedRegisters ctx m).1.csInfo.map Prod.fst =
        ctx.csRegs.filter (fun r => ctx.regUsed r || ctx.callsUnwindInit)) ∧
    (ctx.naked = true → (calculateCalleeSavedRegisters ctx m).1 = m) := by
  constructor
  · intro hnaked hcsi
    unfold calculateCalleeSavedRegisters
    by_cases hempty : ctx.csRegs.isEmpty = true
    · rw [if_pos hempty]
      rw [List.isEmpty_iff.mp hempty]
      simpa using hcsi
    · rw [if_neg hempty, if_neg (by rw [hnaked]; exact Bool.false_ne_true)]
      by_cases hfil : (ctx.csRegs.filter
          (fun r => ctx.regUsed r || ctx.callsUnwindInit)).isEmpty = true
      · rw [if_pos hfil]
        rw [List.isEmpty_iff.mp hfil]
        simpa using hcsi
      · rw [if_neg hfil]
        dsimp only
        rw [foldl_allocateCSSlot_records]
        simp
  · intro hnaked
    unfold calculateCalleeSavedRegisters
    by_cases hempty : ctx.csRegs.isEmpty = true
    · rw [if_pos hempty]
    · rw [if_neg hempty, if_pos hnaked]

/-- Witness for C6 at concrete inputs: with registers {1,3} written out of the
list [1,2,3], the records are for 1 and 3 in order; the naked variant leaves
the model untouched. -/
theorem calculateCalleeSavedRegisters_spec_witness :
    (calculateCalleeSavedRegisters exCtxC6 emptyModel).1.csInfo.map Prod.fst =
        exCtxC6.csRegs.filter
          (fun r => exCtxC6.regUsed r || exCtxC6.callsUnwindInit) ∧
    (calculateCalleeSavedRegisters exCtxC6naked emptyModel).1 = emptyModel :=
  ⟨(calculateCalleeSavedRegisters_spec exCtxC6 emptyModel).1 rfl rfl,
    (calculateCalleeSavedRegisters_spec exCtxC6naked emptyModel).2 rfl⟩

lemma Instr.isTerminator_of_isReturn (i : Instr) (h : i.isReturn = true) :
    i.isTerminator = true := by
  cases i <;> first
    | rfl
    | exact absurd h (by simp [Instr.isReturn])

lemma insertRestoreLoads_eq : ∀ (csi : List (Nat × Int)) (post : List Instr),
    insertRestoreLoads csi post =
      csi.reverse.map (fun c => Instr.csLoad c.1) ++ post
  | [], post => by simp [insertRestoreLoads]
  | c :: rest, post => by
      rw [insertRestoreLoads, insertRestoreLoads_eq rest]
      simp

lemma trailing_decomp (b : List Instr) :
    b = (b.reverse.dropWhile Instr.isTerminator).reverse ++ trailingTerminators b := by
  unfold trailingTerminators
  conv_lhs => rw [← List.reverse_reverse b,
    ← List.takeWhile_append_dropWhile Instr.isTerminator b.reverse]
  rw [List.reverse_append]

lemma trailing_length (b : List Instr) :
    b.length = (b.reverse.dropWhile Instr.isTerminator).length +
      (trailingTerminators b).length := by
  conv_lhs => rw [trailing_decomp b]
  rw [List.length_append, List.length_reverse]

lemma restoreInsertIdx_eq (b : List Instr) (hret : isReturnBlock b = true) :
    restoreInsertIdx b = b.length - (trailingTerminators b).length ∧
      trailingTerminators b ≠ [] := by
  unfold isReturnBlock at hret
  rw [List.getLast?_eq_head?_reverse] at hret
  cases hrev : b.reverse with
  | nil => rw [hrev] at hret; exact absurd hret (by simp)
  | cons a rest =>
      rw [hrev] at hret
      simp only [List.head?] at hret
      have hterm : a.isTerminator = true := Instr.isTerminator_of_isReturn a hret
      have htw : trailingTerminators b =
          (a :: rest.takeWhile Instr.isTerminator).reverse := by
        unfold trailingTerminators
        rw [hrev, List.takeWhile_cons_of_pos hterm]
      have hlen : b.length = rest.length + 1 := by
        rw [← List.length_reverse, hrev]
        simp
      have htwlen : (rest.takeWhile Instr.isTerminator).length ≤ rest.length :=
        (List.takeWhile_sublist _).length_le
      constructor
      · unfold restoreInsertIdx
        rw [hrev, htw]
        simp only [List.drop_succ_cons, List.drop_zero, List.length_reverse,
          List.length_cons]
        omega
      · rw [htw]
        simp

/-- C7: when the target's bulk restore hook declines, restore insertion into a
return block yields the original prefix, then one load per callee-saved
register in reverse order of the callee-saved list, then the block's trailing
terminator sequence (every instruction of which is a terminator, and which is
nonempty since the block ends in a return). -/
theorem restoreCalleeSavedInBlock_spec (csi : List (Nat × Int)) (b : List Instr)
    (hret : isReturnBlock b = true) :
    restoreCalleeSavedInBlock false csi b =
      b.take (b.length - (trailingTerminators b).length) ++
        csi.reverse.map (fun c => Instr.csLoad c.1) ++ trailingTerminators b ∧
    (∀ i ∈ trailingTerminators b, i.isTerminator = true) ∧
    trailingTerminators b ≠ [] := by
  obtain ⟨hidx, hne⟩ := restoreInsertIdx_eq b hret
  have key : ∀ pre tw : List Instr, b = pre ++ tw →
      b.length - tw.length = pre.length →
      b.take (b.length - tw.length) = pre ∧ b.drop (b.length - tw.length) = tw := by
    intro pre tw hb hl
    constructor
    · rw [hl]
      conv_lhs => rw [hb]
      exact List.take_left pre tw
    · rw [hl]
      conv_lhs => rw [hb]
      exact List.drop_left pre tw
  obtain ⟨hpre, hdrop⟩ := key (b.reverse.dropWhile Instr.isTerminator).reverse
    (trailingTerminators b) (trailing_decomp b)
    (by have := trailing_length b; rw [List.length_reverse]; omega)
  refine ⟨?_, ?_, hne⟩
  · unfold restoreCalleeSavedInBlock
    rw [if_neg Bool.false_ne_true, hidx]
    dsimp only
    rw [hpre, hdrop, insertRestoreLoads_eq, List.append_assoc]
  · intro i hi
    unfold trailingTerminators at hi
    rw [List.mem_reverse] at hi
    exact List.mem_takeWhile_imp hi

/-- Witness for C7 at a concrete input: restoring registers 1 then 2 into
[other, branch, ret] yields [other, load 2, load 1, branch, ret]. -/
theorem restoreCalleeSavedInBlock_spec_witness :
    restoreCalleeSavedInBlock false exCSIC7 exBlockC7 =
      exBlockC7.take (exBlockC7.length - (trailingTerminators exBlockC7).length) ++
        exCSIC7.reverse.map (fun c => Instr.csLoad c.1) ++
        trailingTerminators exBlockC7 ∧
    (∀ i ∈ trailingTerminators exBlockC7, i.isTerminator = true) ∧
    trailingTerminators exBlockC7 ≠ [] :=
  restoreCalleeSavedInBlock_spec exCSIC7 exBlockC7 (by decide)

/-- C10: when the frame model has no stack objects at all, frame-index
lowering returns immediately: the function — including any call-frame
pseudo-markers still in it — is unchanged, and no block is processed (no
visit records, so no pseudo is counted toward an SP adjustment or
eliminated). -/
theorem replaceFrameIndices_no_stack_objects (sgd : Bool)
    (fn : MachineFunctionCFG) (h : fn.numStackObjects = 0) :
    replaceFrameIndices sgd fn = (fn, []) := by
  unfold replaceFrameIndices
  rw [if_pos h]

/-- Witness for C10 at a concrete input: a function still containing a
call-frame pseudo pair but with no stack objects is returned untouched. -/
theorem replaceFrameIndices_no_stack_objects_witness :
    replaceFrameIndices true exFnC10 = (exFnC10, []) :=
  replaceFrameIndices_no_stack_objects true exFnC10 rfl


lemma foldl_recs_prefix {α : Type _} (step : DfsState → α → DfsState)
    (l : List α) (st : DfsState)
    (h : ∀ s x, x ∈ l → ∃ tl, (step s x).recs = s.recs ++ tl) :
    ∃ tl, (l.foldl step st).recs = st.recs ++ tl := by
  induction l generalizing st with
  | nil => exact ⟨[], by simp⟩
  | cons x xs ih =>
      obtain ⟨t1, h1⟩ := h st x (List.mem_cons_self _ _)
      obtain ⟨t2, h2⟩ := ih (step st x) (fun s y hy => h s y (List.mem_cons_of_mem _ hy))
      exact ⟨t1 ++ t2, by rw [List.foldl_cons, h2, h1, List.append_assoc]⟩

lemma dfsFrom_recs_prefix (sgd : Bool) (fn : MachineFunctionCFG) :
    ∀ (fuel b : Nat) (e : Int) (p : Option Nat) (st : DfsState),
    ∃ tl, (dfsFrom sgd fn fuel b e p st).recs = st.recs ++ tl := by
  intro fuel
  induction fuel with
  | zero => intro b e p st; exact ⟨[], by simp [dfsFrom]⟩
  | succ n ih =>
      intro b e p st
      simp only [dfsFrom]
      split
      · exact ⟨[], by simp⟩
      · obtain ⟨tl, htl⟩ := foldl_recs_prefix
          (fun s nb => dfsFrom sgd fn n nb
            (replaceFrameIndicesInBlock sgd e (fn.blocks.getD b [])).1 (some b) s)
          (fn.succs.getD b [])
          ⟨b :: st.visited, st.recs ++
            [⟨b, p, e, (replaceFrameIndicesInBlock sgd e (fn.blocks.getD b [])).1,
              (replaceFrameIndicesInBlock sgd e (fn.blocks.getD b [])).2, true⟩]⟩
          (fun s x _ => ih x _ _ s)
        refine ⟨[⟨b, p, e, (replaceFrameIndicesInBlock sgd e (fn.blocks.getD b [])).1,
          (replaceFrameIndicesInBlock sgd e (fn.blocks.getD b [])).2, true⟩] ++ tl, ?_⟩
        rw [htl]
        dsimp only
        rw [List.append_assoc]

lemma VisitRecOK_mono (sgd : Bool) (fn : MachineFunctionCFG)
    (recs tl : List VisitRec) (r : VisitRec) (h : VisitRecOK sgd fn recs r) :
    VisitRecOK sgd fn (recs ++ tl) r := by
  obtain ⟨h1, h2, h3, h4⟩ := h
  refine ⟨?_, h2, h3, h4⟩
  intro hr
  obtain ⟨ha, hb⟩ := h1 hr
  refine ⟨ha, ?_⟩
  intro p hp
  obtain ⟨rp, hrp, hrest⟩ := hb p hp
  exact ⟨rp, List.mem_append_left _ hrp, hrest⟩

lemma dfsFrom_inv (sgd : Bool) (fn : MachineFunctionCFG) :
    ∀ (fuel b : Nat) (e : Int) (p : Option Nat) (st : DfsState),
    ((p = none ∧ b = 0 ∧ e = 0) ∨
      (∃ q, p = some q ∧ ∃ rp ∈ st.recs, rp.block = q ∧ rp.reachable = true ∧
        rp.exitAdj = e)) →
    (∀ r ∈ st.recs, VisitRecOK sgd fn st.recs r) →
    ∀ r ∈ (dfsFrom sgd fn fuel b e p st).recs,
      VisitRecOK sgd fn (dfsFrom sgd fn fuel b e p st).recs r := by
  intro fuel
  induction fuel with
  | zero =>
      intro b e p st hpre hinv
      simpa [dfsFrom] using hinv
  | succ n ih =>
      intro b e p st hpre hinv
      simp only [dfsFrom]
      split
      · exact hinv
      · set r0 : VisitRec :=
          ⟨b, p, e, (replaceFrameIndicesInBlock sgd e (fn.blocks.getD b [])).1,
            (replaceFrameIndicesInBlock sgd e (fn.blocks.getD b [])).2, true⟩ with hr0
        set st1 : DfsState := ⟨b :: st.visited, st.recs ++ [r0]⟩ with hst1
        have hr0OK : VisitRecOK sgd fn st1.recs r0 := by
          refine ⟨?_, ?_, rfl, rfl⟩
          · intro _
            constructor
            · intro hpn
              have hpn2 : p = none := hpn
              rcases hpre with ⟨_, hb0, he0⟩ | ⟨q, hq, _⟩
              · exact ⟨hb0, he0⟩
              · rw [hpn2] at hq
                exact Option.noConfusion hq
            · intro q hq
              have hq2 : p = some q := hq
              rcases hpre with ⟨hpn, _, _⟩ | ⟨q2, hq3, rp, hrp, hb2, hre2, hex2⟩
              · rw [hpn] at hq2
                exact Option.noConfusion hq2
              · rw [hq3] at hq2
                have hqq : q2 = q := Option.some.inj hq2
                subst hqq
                exact ⟨rp, List.mem_append_left _ hrp, hb2, hre2, hex2.symm⟩
          · intro hfalse
            exact Bool.noConfusion hfalse
        have hinv1 : ∀ r ∈ st1.recs, VisitRecOK sgd fn st1.recs r := by
          intro r hr
          rcases List.mem_append.mp hr with hold | hnew
          · exact VisitRecOK_mono sgd fn st.recs [r0] r (hinv r hold)
          · rw [List.mem_singleton.mp hnew]
            exact hr0OK
        have hfold := foldl_preserves
          (fun s => (∀ r ∈ s.recs, VisitRecOK sgd fn s.recs r) ∧ r0 ∈ s.recs)
          (fun s nb => dfsFrom sgd fn n nb
            (replaceFrameIndicesInBlock sgd e (fn.blocks.getD b [])).1 (some b) s)
          (fn.succs.getD b []) st1 ?_ ?_
        · exact hfold.1
        · intro s nb _ hs
          constructor
          · exact ih nb _ (some b) s
              (Or.inr ⟨b, rfl, r0, hs.2, rfl, rfl, rfl⟩) hs.1
          · obtain ⟨tl, htl⟩ := dfsFrom_recs_prefix sgd fn n nb _ (some b) s
            rw [htl]
            exact List.mem_append_left _ hs.2
        · exact ⟨hinv1, List.mem_append_right _ (List.mem_singleton_self _)⟩

/-- C4: every block processed by frame-index lowering satisfies the
SP-adjustment discipline: a reachable block's entry adjustment is the
recorded exit adjustment of its DFS-stack predecessor (zero for the entry
block, which is the only reachable block without one), every block
unreachable from the entry is processed with the adjustment reset to zero,
and each block's recorded exit adjustment and rewritten instructions come
from processing its instructions at that entry adjustment. -/
theorem replaceFrameIndices_adjustments (sgd : Bool) (fn : MachineFunctionCFG) :
    ∀ r ∈ (replaceFrameIndices sgd fn).2,
      VisitRecOK sgd fn (replaceFrameIndices sgd fn).2 r := by
  unfold replaceFrameIndices
  split
  · intro r hr
    exact absurd hr (List.not_mem_nil r)
  · dsimp only
    intro r hr
    rcases List.mem_append.mp hr with hdfs | hun
    · have hOK := dfsFrom_inv sgd fn (fn.blocks.length + 1) 0 0 none ⟨[], []⟩
        (Or.inl ⟨rfl, rfl, rfl⟩)
        (fun r hr => absurd hr (List.not_mem_nil r)) r hdfs
      exact VisitRecOK_mono sgd fn _ _ r hOK
    · obtain ⟨i, hi, hri⟩ := List.mem_map.mp hun
      rw [← hri]
      refine ⟨?_, fun _ => ⟨rfl, rfl⟩, rfl, rfl⟩
      intro hfalse
      exact Bool.noConfusion hfalse

/-- Witness for C4 at the spec's two-block scenario: block 1 of exFnC4 is
processed with entry adjustment 16 — block 0's exit adjustment after its
16-byte call-frame setup — with its frame-index reference resolved at
adjustment 16. -/
theorem replaceFrameIndices_adjustments_witness :
    VisitRecOK true exFnC4 (replaceFrameIndices true exFnC4).2
      ⟨1, some 0, 16, 16, [Instr.resolvedRef 0 16, Instr.ret], true⟩ :=
  replaceFrameIndices_adjustments true exFnC4
    ⟨1, some 0, 16, 16, [Instr.resolvedRef 0 16, Instr.ret], true⟩ (by decide)


/-- C2: the "place one object" helper (AdjustStackOffset, lines 394-420) behaves,
for every object with positive alignment and nonnegative running offset, exactly
as the spec describes it: downward stack — add the size, then round the updated
offset up to the object's alignment, and record the negation of the rounded
value; upward stack — round up first, record the rounded value, then add the
size; in both cases the running maximum alignment becomes the maximum of its
previous value and the object's alignment. -/
theorem AdjustStackOffset_matches_spec (m : FrameModel) (frameIdx : Nat)
    (stackGrowsDown : Bool) (offset : Int) (maxAlign : Nat)
    (hoff : 0 ≤ offset) (hal : 0 < m.getObjectAlignment frameIdx) :
    AdjustStackOffset m frameIdx stackGrowsDown offset maxAlign =
      adjustStackOffsetSpec m frameIdx stackGrowsDown offset maxAlign := by
  cases stackGrowsDown with
  | true =>
      have h := roundUp_eq_roundUpToAlignment (offset + m.getObjectSize frameIdx)
        (m.getObjectAlignment frameIdx) (by positivity) hal
      simp [AdjustStackOffset, adjustStackOffsetSpec, h]
  | false =>
      have h := roundUp_eq_roundUpToAlignment offset
        (m.getObjectAlignment frameIdx) hoff hal
      simp [AdjustStackOffset, adjustStackOffsetSpec, h]

/-- C9: offset assignment faults (the line 457-458 assert fires) exactly when
the sign-adjusted starting local-area offset is negative; whenever the local
area offset agrees in sign with the growth direction the assertion branch is
unreachable and the computation completes. -/
theorem calculateFrameObjectOffsets_fault_iff (ctx : TargetFrameInfo) (m : FrameModel) :
    calculateFrameObjectOffsets ctx m = none ↔ adjustedLocalAreaOffset ctx < 0 := by
  have hrl : runLayout ctx m = none ↔ adjustedLocalAreaOffset ctx < 0 := by
    unfold runLayout
    by_cases h : adjustedLocalAreaOffset ctx < 0
    · simp [h]
    · simp [h]
  unfold calculateFrameObjectOffsets
  cases hr : runLayout ctx m with
  | none => simp [hrl.mp hr]
  | some st =>
      have hnot : ¬ adjustedLocalAreaOffset ctx < 0 := fun hlt => by
        have h2 := hrl.mpr hlt
        rw [hr] at h2
        exact Option.noConfusion h2
      simp [hnot]

/-- Witness for C2 at a concrete input: one 4-byte object with 8-byte alignment
on a downward-growing stack, running offset 5. -/
theorem AdjustStackOffset_matches_spec_witness :
    AdjustStackOffset exModelC2 0 true 5 4 = adjustStackOffsetSpec exModelC2 0 true 5 4 :=
  AdjustStackOffset_matches_spec exModelC2 0 true 5 4 (by decide) (by decide)

end PEI
